import Mathlib

/-!
# BaikalDataGenerator: `render.cpp`

A shallow embedding of `BaikalDataGenerator/Source/render.cpp` (the dataset
generation driver of RadeonProRender-Baikal) together with theorems about it.

Conventions of the embedding.

* A C++ `float` is a value of `Flt`: an exact rational or NaN.  Only the
  comparison `!=` and the constant `0.0` are used on it; the pixel arithmetic of
  `SaveOutput` is carried out over `ℚ` (exact arithmetic).
* `std::uint32_t` arithmetic is arithmetic on `Nat` reduced `% 2^32`.
* A function that can throw returns `Except Failure`, or the events issued so
  far together with the failure that stopped it.
* External collaborators (tinyxml2, OpenCL, the renderer, OpenImageIO) are
  represented by the data they hand to this file and by the sequence of calls
  this file makes on them.
-/

namespace Baikal

/-! ## Floating point values and vectors -/

/-- A C++ `float`: an exact rational value, or NaN. -/
inductive Flt where
  | num (q : ℚ)
  | nan
  deriving DecidableEq

instance : Zero Flt := ⟨Flt.num 0⟩

/-- The built-in comparison `a != b` on `float`: true as soon as one side is NaN. -/
def Flt.ne : Flt → Flt → Bool
  | Flt.num p, Flt.num q => decide (p ≠ q)
  | _, _ => true

/-- Whether a float is NaN. -/
def Flt.isNaN : Flt → Bool
  | Flt.nan => true
  | Flt.num _ => false

/-- The vector type `RadeonRays::float3`, which carries four components. -/
structure float3 (α : Type) where
  x : α
  y : α
  z : α
  w : α
  deriving DecidableEq

/-- The file-local `operator != (float3 left, float3 right)`: compares `x`, `y`, `z`. -/
def float3.ne (left right : float3 Flt) : Bool :=
  Flt.ne left.x right.x || Flt.ne left.y right.y || Flt.ne left.z right.z

/-- The record `CameraInfo`, with the fields `render.cpp` reads and writes; the field
`at` of the source is spelled `at_`. -/
structure CameraInfo where
  pos : float3 Flt
  at_ : float3 Flt
  up : float3 Flt
  focal_length : Flt
  focus_distance : Flt
  aperture : Flt
  deriving DecidableEq

/-- The ways a function of `render.cpp` can stop without returning. -/
inductive Failure where
  /-- The macro `THROW_EX(msg)`. -/
  | ex (msg : String)
  /-- A `std::string` constructed from the null pointer returned for an absent attribute. -/
  | null_string
  /-- The image loader could not load the named texture file. -/
  | image_load (file : String)
  /-- A vector indexed outside its bounds. -/
  | out_of_range
  deriving DecidableEq

/-! ## The XML documents handed over by tinyxml2 -/

/-- An XML element: its name, its attributes in document order (name and text),
and its child elements in document order. -/
inductive XMLElement where
  | mk (name : String) (attrs : List (String × String)) (children : List XMLElement)

/-- The tag name of an element. -/
def XMLElement.Name : XMLElement → String
  | XMLElement.mk n _ _ => n

/-- The attribute list of an element. -/
def XMLElement.attrs : XMLElement → List (String × String)
  | XMLElement.mk _ a _ => a

/-- The child elements of an element. -/
def XMLElement.children : XMLElement → List XMLElement
  | XMLElement.mk _ _ c => c

/-- A parsed document: its top-level elements.  A file that could not be loaded
gives the empty document. -/
structure XMLDocument where
  children : List XMLElement

/-- The text conversions of tinyxml2 (`XMLUtil::ToFloat`, `XMLUtil::ToInt64`), which
report failure on text they cannot convert. -/
structure XMLUtil where
  ToFloat : String → Option Flt
  ToInt64 : String → Option Int

/-- The call `FirstChildElement(name)` on a list of sibling elements: the first
one with that name, or null. -/
def FirstChildElement (siblings : List XMLElement) (name : String) : Option XMLElement :=
  siblings.find? (fun e => e.Name == name)

/-- The elements visited by `e = FirstChildElement(name)` followed by repeated
`e = e->NextSiblingElement(name)` until null: the siblings with that name, in
document order. -/
def ChildElements (siblings : List XMLElement) (name : String) : List XMLElement :=
  siblings.filter (fun e => e.Name == name)

/-- The call `Attribute(name)`: the text of the first attribute with that name, or
null. -/
def XMLElement.Attribute (e : XMLElement) (name : String) : Option String :=
  (e.attrs.find? (fun a => a.1 == name)).map Prod.snd

/-- The call `FloatAttribute(name)`: the default `0` when the attribute is absent
or its text does not convert. -/
def XMLElement.FloatAttribute (u : XMLUtil) (e : XMLElement) (name : String) : Flt :=
  match e.Attribute name with
  | none => 0
  | some s => (u.ToFloat s).getD 0

/-- The call `Int64Attribute(name)`: the default `0` when the attribute is absent
or its text does not convert. -/
def XMLElement.Int64Attribute (u : XMLUtil) (e : XMLElement) (name : String) : Int :=
  match e.Attribute name with
  | none => 0
  | some s => (u.ToInt64 s).getD 0

/-- The call `clear()` on a `std::vector` or `std::set`: the container, emptied. -/
def clear {α : Type} (_container : List α) : List α := []

/-! ## `Render::LoadCameraXml` -/

/-- The body of the `while (elem)` loop of `LoadCameraXml`: the `CameraInfo` read
from one `camera` element.  The `w` components keep the zero of the default
constructor. -/
def readCameraInfo (u : XMLUtil) (elem : XMLElement) : CameraInfo :=
  { pos := ⟨elem.FloatAttribute u "cpx", elem.FloatAttribute u "cpy",
            elem.FloatAttribute u "cpz", 0⟩
    at_ := ⟨elem.FloatAttribute u "tpx", elem.FloatAttribute u "tpy",
            elem.FloatAttribute u "tpz", 0⟩
    up := ⟨elem.FloatAttribute u "upx", elem.FloatAttribute u "upy",
           elem.FloatAttribute u "upz", 0⟩
    focal_length := elem.FloatAttribute u "focal_length"
    focus_distance := elem.FloatAttribute u "focus_dist"
    aperture := elem.FloatAttribute u "aperture" }

/-- `Render::LoadCameraXml`, as a function of the parsed document and of the
previous `m_camera_states`: the new `m_camera_states`, or the message thrown
(in which case `m_camera_states` is left as it was). -/
def LoadCameraXml (u : XMLUtil) (doc : XMLDocument) (m_camera_states : List CameraInfo) :
    Except Failure (List CameraInfo) :=
  match FirstChildElement doc.children "cam_list" with
  | none => Except.error (Failure.ex "Failed to open lights set file.")
  | some root =>
    -- one push_back per visited element
    Except.ok
      ((ChildElements root.children "camera").foldl
        (fun states elem => states ++ [readCameraInfo u elem]) (clear m_camera_states))

/-! ## `Render::LoadSppXml` -/

/-- The cast `(int)` applied to an `int64_t`: reduction to the signed 32-bit range. -/
def toInt32 (v : Int) : Int :=
  (v + 2 ^ 31) % 2 ^ 32 - 2 ^ 31

/-- The call `std::set<int>::insert`, on a set kept as a strictly increasing list. -/
def setInsert (v : Int) : List Int → List Int
  | [] => [v]
  | y :: ys =>
    if v < y then v :: y :: ys
    else if v = y then y :: ys
    else y :: setInsert v ys

/-- `Render::LoadSppXml`, as a function of the parsed document and of the previous
`m_spp`: the new `m_spp`, or the message thrown (in which case `m_spp` is left as
it was). -/
def LoadSppXml (u : XMLUtil) (doc : XMLDocument) (m_spp : List Int) :
    Except Failure (List Int) :=
  match FirstChildElement doc.children "spp_list" with
  | none => Except.error (Failure.ex "Failed to open lights set file.")
  | some root =>
    -- one insert per visited element
    Except.ok
      ((ChildElements root.children "spp").foldl
        (fun s elem => setInsert (toInt32 (elem.Int64Attribute u "iter_num")) s) (clear m_spp))

/-! ## `Render::LoadLightXml` -/

/-- A texture handle returned by the image loader. -/
structure Texture where
  file : String
  deriving DecidableEq

/-- The part of a light that depends on its class: a spot light carries its cone
shape (`csx`, `csy`), an image based light its texture and multiplier. -/
inductive LightKind where
  | point
  | direct
  | spot (csx csy : Flt)
  | ibl (tex : Texture) (mul : Flt)
  deriving DecidableEq

/-- A light as `LoadLightXml` leaves it: its class and the three vectors set on
every light. -/
structure Light where
  kind : LightKind
  position : float3 Flt
  direction : float3 Flt
  radiance : float3 Flt
  deriving DecidableEq

/-- Modelled from the spec: `Scene1::AttachLight` is declared outside the sources at
hand; the spec says each parsed light is attached to the scene and prior lights
are not cleared (cumulative), so attaching appends to the lights of the scene. -/
def AttachLight (lights : List Light) (light : Light) : List Light :=
  lights ++ [light]

/-- The first part of the loop body of `LoadLightXml`: the light object created for
the `type` attribute of the element, or the failure raised. -/
def createLight (u : XMLUtil) (LoadImage : String → Option Texture) (elem : XMLElement) :
    Except Failure LightKind :=
  match elem.Attribute "type" with
  | none => Except.error Failure.null_string
  | some type =>
    if type = "point" then Except.ok LightKind.point
    else if type = "direct" then Except.ok LightKind.direct
    else if type = "spot" then
      Except.ok (LightKind.spot (elem.FloatAttribute u "csx") (elem.FloatAttribute u "csy"))
    else if type = "ibl" then
      match elem.Attribute "tex" with
      | none => Except.error Failure.null_string
      | some tex_name =>
        let mul := elem.FloatAttribute u "mul"
        match LoadImage tex_name with
        | none => Except.error (Failure.image_load tex_name)
        | some tex => Except.ok (LightKind.ibl tex mul)
    else Except.error (Failure.ex ("Invalid light type " ++ type))

/-- The loop body of `LoadLightXml` up to `AttachLight`: the light built from one
`light` element, or the failure raised. -/
def readLight (u : XMLUtil) (LoadImage : String → Option Texture) (elem : XMLElement) :
    Except Failure Light :=
  match createLight u LoadImage elem with
  | Except.error f => Except.error f
  | Except.ok kind =>
    Except.ok
      { kind := kind
        position := ⟨elem.FloatAttribute u "posx", elem.FloatAttribute u "posy",
                     elem.FloatAttribute u "posz", 0⟩
        direction := ⟨elem.FloatAttribute u "dirx", elem.FloatAttribute u "diry",
                      elem.FloatAttribute u "dirz", 0⟩
        radiance := ⟨elem.FloatAttribute u "radx", elem.FloatAttribute u "rady",
                     elem.FloatAttribute u "radz", 0⟩ }

/-- The `while (elem)` loop of `LoadLightXml` over the visited elements: the lights
of the scene when the loop stops, and the failure that stopped it, if any. -/
def lightLoop (u : XMLUtil) (LoadImage : String → Option Texture) :
    List XMLElement → List Light → List Light × Option Failure
  | [], lights => (lights, none)
  | elem :: rest, lights =>
    match readLight u LoadImage elem with
    | Except.error f => (lights, some f)
    | Except.ok light => lightLoop u LoadImage rest (AttachLight lights light)

/-- `Render::LoadLightXml`, as a function of the parsed document and of the lights
attached to the scene: the lights attached when the call ends, and the failure
that ended it, if any. -/
def LoadLightXml (u : XMLUtil) (LoadImage : String → Option Texture) (doc : XMLDocument)
    (lights : List Light) : List Light × Option Failure :=
  match FirstChildElement doc.children "light_list" with
  | none => (lights, some (Failure.ex "Failed to open lights set file."))
  | some root => lightLoop u LoadImage (ChildElements root.children "light") lights

/-! ## The output table and the environment -/

/-- The values of `Renderer::OutputType` used by `render.cpp`. -/
inductive OutputType where
  | kColor
  | kViewShadingNormal
  | kDepth
  | kAlbedo
  | kGloss
  deriving DecidableEq

/-- The record `OutputDesc`. -/
structure OutputDesc where
  type : OutputType
  name : String
  file_ext : String
  width : Nat
  height : Nat
  deriving DecidableEq

/-- The static table `outputs_collection`, as initialised. -/
def outputs_collection : List OutputDesc :=
  [ ⟨OutputType.kColor, "color", "png", 0, 0⟩,
    ⟨OutputType.kViewShadingNormal, "view_shading_depth", "png", 0, 0⟩,
    ⟨OutputType.kDepth, "depth", "png", 0, 0⟩,
    ⟨OutputType.kAlbedo, "albedo", "png", 0, 0⟩,
    ⟨OutputType.kGloss, "gloss", "png", 0, 0⟩ ]

/-- The constant `kNumIterations`. -/
def kNumIterations : Nat := 4096

/-- The OpenCL constant `CL_DEVICE_TYPE_GPU`. -/
def CL_DEVICE_TYPE_GPU : Nat := 4

/-- What the standard library and OpenImageIO answer to this file: the queries of
`std::filesystem::path` on a path given as text, and whether
`ImageOutput::create` returns an encoder for a file name. -/
structure Env where
  has_filename : String → Bool
  has_parent_path : String → Bool
  parent_path : String → String
  path_append : String → String → String
  ImageOutput_create : String → Bool

/-- A POSIX reading of `std::filesystem::path` with an encoder for every name:
a path has a filename when it is not empty and does not end in `/`, and has a
parent path when it contains a `/`. -/
def posixEnv : Env where
  has_filename := fun p =>
    match p.data.getLast? with
    | none => false
    | some c => c != '/'
  has_parent_path := fun p => p.data.contains '/'
  parent_path := fun p =>
    let stem := p.data.reverse.dropWhile (fun c => c != '/')
    let trimmed := stem.dropWhile (fun c => c == '/')
    if trimmed.isEmpty then (if stem.isEmpty then "" else "/") else String.mk trimmed.reverse
  path_append := fun dir name => dir ++ "/" ++ name
  ImageOutput_create := fun _ => true

/-- The environment `posixEnv` without any image encoder. -/
def noEncoderEnv : Env :=
  { posixEnv with ImageOutput_create := fun _ => false }

/-! ## The constructor `Render::Render` -/

/-- The inner `for` loop of the platform scan: `platform_index` after the devices
of platform `j` have been looked at. -/
def scanDevices (j : Nat) : List Nat → Nat → Nat
  | [], platform_index => platform_index
  | type :: rest, platform_index =>
    if type = CL_DEVICE_TYPE_GPU then j else scanDevices j rest platform_index

/-- The outer `for` loop of the platform scan, from platform `j` on. -/
def scanPlatforms : Nat → List (List Nat) → Nat → Nat
  | _, [], platform_index => platform_index
  | j, devices :: rest, platform_index =>
    scanPlatforms (j + 1) rest (scanDevices j devices platform_index)

/-- The second loop of the constructor: `device_index` after the scan of the chosen
platform from device `i` on, `0` being the initial value. -/
def scanDeviceIndex (i : Nat) : List Nat → Nat
  | [] => 0
  | type :: rest => if type = CL_DEVICE_TYPE_GPU then i else scanDeviceIndex (i + 1) rest

/-- The device selection of the constructor on the enumerated platforms, each given
by the types of its devices: `(platform_index, device_index)`, or nothing when
`platforms[platform_index]` does not exist. -/
def selectDevice (platforms : List (List Nat)) : Option (Nat × Nat) :=
  let platform_index := scanPlatforms 0 platforms 0
  match platforms.get? platform_index with
  | none => none
  | some devices => some (platform_index, scanDeviceIndex 0 devices)

/-- The calls the constructor makes on its collaborators. -/
inductive CtorCall where
  | CreateAllPlatforms
  | CreateContext (platform_index device_index : Nat)
  | CreateFactory
  | CreateRenderer
  | CreateSceneController
  | CreateOutput (width height : Nat)
  | SetOutput (type : OutputType)
  | LoadScene (file dir : String)
  deriving DecidableEq

/-- The table `outputs_collection` once the constructor has stored the output width
and height in every entry. -/
def sizedOutputs (output_width output_height : Nat) : List OutputDesc :=
  outputs_collection.map
    (fun output_info => { output_info with width := output_width, height := output_height })

/-- The loop of the constructor over `outputs_collection`: two calls per entry (the
loop also stores the width and height in the entry, see `sizedOutputs`). -/
def createOutputs (output_width output_height : Nat) : List OutputDesc → List CtorCall
  | [] => []
  | output_info :: rest =>
    CtorCall.CreateOutput output_width output_height :: CtorCall.SetOutput output_info.type ::
      createOutputs output_width output_height rest

/-- The constructor `Render::Render` on the enumerated platforms: the calls made on
the collaborators, in order, and the failure that ended it, if any. -/
def RenderCtor (env : Env) (platforms : List (List Nat)) (file_name : String)
    (output_width output_height : Nat) : List CtorCall × Option Failure :=
  match selectDevice platforms with
  | none => ([CtorCall.CreateAllPlatforms], some Failure.out_of_range)
  | some (platform_index, device_index) =>
    if device_index < (platforms.getD platform_index []).length then
      let built :=
        [CtorCall.CreateAllPlatforms, CtorCall.CreateContext platform_index device_index,
          CtorCall.CreateFactory, CtorCall.CreateRenderer, CtorCall.CreateSceneController] ++
        createOutputs output_width output_height outputs_collection
      if !env.has_filename file_name then
        (built, some (Failure.ex "There is no any file to load"))
      else if !env.has_parent_path file_name then
        (built, some (Failure.ex "can not read directory from input scene 'file_name'"))
      else
        (built ++ [CtorCall.LoadScene file_name (env.parent_path file_name)], none)
    else ([CtorCall.CreateAllPlatforms], some Failure.out_of_range)

/-! ## The renderer camera and `Render::UpdateCameraSettings` -/

/-- Modelled from the spec: `PerspectiveCamera` is declared outside the sources at
hand; the spec describes the renderer camera as holding current values of
position, look-at, up, aperture, focal length and focus distance, so each
setter stores its arguments and each getter returns what is stored. -/
structure PerspectiveCamera where
  position : float3 Flt
  forward : float3 Flt
  up : float3 Flt
  aperture : Flt
  focal_length : Flt
  focus_distance : Flt
  sensor_size : Flt × Flt
  depth_range : Flt × Flt
  deriving DecidableEq

/-- Modelled from the spec: `PerspectiveCamera::Create(eye, at, up)`, declared outside
the sources at hand, stores its three arguments; the other values start at zero. -/
def PerspectiveCamera.Create (eye at_ up : float3 Flt) : PerspectiveCamera :=
  { position := eye, forward := at_, up := up, aperture := 0, focal_length := 0,
    focus_distance := 0, sensor_size := (0, 0), depth_range := (0, 0) }

/-- Modelled from the spec: `LookAt(eye, at, up)`, declared outside the sources at hand,
stores its three arguments as position, look-at and up. -/
def PerspectiveCamera.LookAt (c : PerspectiveCamera) (eye at_ up : float3 Flt) :
    PerspectiveCamera :=
  { c with position := eye, forward := at_, up := up }

/-- The calls of `UpdateCameraSettings` that change the renderer camera. -/
inductive CameraCall where
  | SetAperture (a : Flt)
  | SetFocalLength (f : Flt)
  | SetFocusDistance (d : Flt)
  | LookAt (pos at_ up : float3 Flt)
  deriving DecidableEq

/-- `Render::UpdateCameraSettings`: the camera afterwards and the calls made on it,
in order. -/
def UpdateCameraSettings (cam_state : CameraInfo) (m_camera : PerspectiveCamera) :
    PerspectiveCamera × List CameraCall :=
  let s1 : PerspectiveCamera × List CameraCall :=
    if Flt.ne cam_state.aperture m_camera.aperture then
      ({ m_camera with aperture := cam_state.aperture },
        [CameraCall.SetAperture cam_state.aperture])
    else (m_camera, [])
  let s2 : PerspectiveCamera × List CameraCall :=
    if Flt.ne cam_state.focal_length s1.1.focal_length then
      ({ s1.1 with focal_length := cam_state.focal_length },
        s1.2 ++ [CameraCall.SetFocalLength cam_state.focal_length])
    else s1
  let s3 : PerspectiveCamera × List CameraCall :=
    if Flt.ne cam_state.focus_distance s2.1.focus_distance then
      ({ s2.1 with focus_distance := cam_state.focus_distance },
        s2.2 ++ [CameraCall.SetFocusDistance cam_state.focus_distance])
    else s2
  let cur_pos := s3.1.position
  let at_ := s3.1.forward
  let up := s3.1.up
  if float3.ne cur_pos cam_state.pos || float3.ne at_ cam_state.at_ ||
      float3.ne up cam_state.up then
    (s3.1.LookAt cam_state.pos cam_state.at_ cam_state.up,
      s3.2 ++ [CameraCall.LookAt cam_state.pos cam_state.at_ cam_state.up])
  else s3

/-- No component that `UpdateCameraSettings` compares is NaN. -/
def CameraInfo.noNaN (c : CameraInfo) : Prop :=
  c.aperture.isNaN = false ∧ c.focal_length.isNaN = false ∧ c.focus_distance.isNaN = false ∧
  c.pos.x.isNaN = false ∧ c.pos.y.isNaN = false ∧ c.pos.z.isNaN = false ∧
  c.at_.x.isNaN = false ∧ c.at_.y.isNaN = false ∧ c.at_.z.isNaN = false ∧
  c.up.x.isNaN = false ∧ c.up.y.isNaN = false ∧ c.up.z.isNaN = false

/-- The camera agrees with the camera state on everything `UpdateCameraSettings`
compares. -/
def CameraInfo.settled (c : CameraInfo) (cam : PerspectiveCamera) : Prop :=
  Flt.ne c.aperture cam.aperture = false ∧ Flt.ne c.focal_length cam.focal_length = false ∧
  Flt.ne c.focus_distance cam.focus_distance = false ∧
  float3.ne cam.position c.pos = false ∧ float3.ne cam.forward c.at_ = false ∧
  float3.ne cam.up c.up = false

/-! ## `Render::SaveOutput` -/

/-- The text `ss.str()` built at the start of `SaveOutput`; `operator<<` on an `int`
writes its decimal form, as `toString` does. -/
def fileName (desc : OutputDesc) (cam_index spp : Int) : String :=
  "cam_" ++ toString cam_index ++ "_" ++ desc.name ++ "_spp_" ++ toString spp ++ ".png"

/-- The number a list of decimal digit characters denotes. -/
def decimalValue (cs : List Char) : Nat :=
  cs.foldl (fun acc c => 10 * acc + (c.toNat - 48)) 0

/-- The control flow of `SaveOutput` around the pixel loop: the path of the image
file it writes, or the failure raised. -/
def SaveOutput (env : Env) (desc : OutputDesc) (file_dir : String) (cam_index spp : Int) :
    Except Failure String :=
  let name := fileName desc cam_index spp
  if !env.has_filename file_dir then Except.error (Failure.ex "incorrect output path")
  else
    let path := env.path_append file_dir name
    if !env.ImageOutput_create name then
      Except.error (Failure.ex "Can't create image file on disk")
    else Except.ok path

/-- The statement `val *= (1.f / val.w)` on a `float3`, which scales `x`, `y`, `z`. -/
def scaleByInvW (val : float3 ℚ) : float3 ℚ :=
  let c := 1 / val.w
  { val with x := val.x * c, y := val.y * c, z := val.z * c }

/-- The body of the inner loop of `SaveOutput` at `(x, y)`, with the index
arithmetic of `std::uint32_t`: reads one pixel of `output_data` and assigns the
`x`, `y`, `z` members of one pixel of `image_data`.  An index outside a vector,
which the source leaves undefined, reads zero and writes nothing. -/
def savePixel (width height : Nat) (output_data : List (float3 ℚ)) (y x : Nat)
    (image_data : List (float3 ℚ)) : List (float3 ℚ) :=
  let val := scaleByInvW
    (output_data.getD (((height - 1 - y) * width + x) % 2 ^ 32) ⟨0, 0, 0, 0⟩)
  image_data.modify (fun p => { p with x := val.x, y := val.y, z := val.z })
    ((y * width + x) % 2 ^ 32)

/-- The pixel loops of `SaveOutput` on the buffer read back from the renderer:
the `image_data` handed to `write_image`. -/
def SaveOutput_image_data (width height : Nat) (output_data : List (float3 ℚ)) :
    List (float3 ℚ) :=
  -- image_data.resize(buffer.GetElementCount())
  let image_data : List (float3 ℚ) := List.replicate output_data.length ⟨0, 0, 0, 0⟩
  (List.range height).foldl
    (fun img y => (List.range width).foldl
      (fun img x => savePixel width height output_data y x img) img)
    image_data

/-! ## `Render::GenerateDataset` -/

/-- The calls `GenerateDataset` makes on the outputs, the controller and the renderer,
and its calls of `SaveOutput`.  `Clear`, `CompileScene` and `Render` record the
value of `counter` at the time of the call; `SaveOutput` records the arguments of
the call and the path of the file written, or nothing when the call threw. -/
inductive Event where
  | Clear (counter : Int) (output : Nat)
  | CompileScene (counter : Int)
  | Render (counter : Int)
  | SaveOutput (cam_index : Int) (desc : OutputDesc) (spp : Int) (written : Option String)
  deriving DecidableEq

/-- The loop `for (const auto& output : outputs_collection) SaveOutput(...)`: the
calls made, and the failure that stopped the loop. -/
def saveOutputs (env : Env) (path : String) (counter spp : Int) :
    List OutputDesc → List Event × Option Failure
  | [] => ([], none)
  | output :: rest =>
    match SaveOutput env output path counter spp with
    | Except.error f => ([Event.SaveOutput counter output spp none], some f)
    | Except.ok file =>
      let r := saveOutputs env path counter spp rest
      (Event.SaveOutput counter output spp (some file) :: r.1, r.2)

/-- The loop `for (auto i = 0u; i < kNumIterations; i++)` with `n` iterations left
and loop variable `i`: the events issued, and the failure that stopped it. -/
def renderLoop (env : Env) (m_spp : List Int) (outputs : List OutputDesc) (path : String)
    (counter : Int) : Nat → Nat → List Event × Option Failure
  | 0, _ => ([], none)
  | n + 1, i =>
    if ((i + 1 : Nat) : Int) ∈ m_spp then
      match saveOutputs env path counter ((i + 1 : Nat) : Int) outputs with
      | (saved, some f) => (Event.Render counter :: saved, some f)
      | (saved, none) =>
        let r := renderLoop env m_spp outputs path counter n (i + 1)
        (Event.Render counter :: (saved ++ r.1), r.2)
    else
      let r := renderLoop env m_spp outputs path counter n (i + 1)
      (Event.Render counter :: r.1, r.2)

/-- The camera built by the `if (!m_camera)` branch of `GenerateDataset`. -/
def initialCamera (cam_state : CameraInfo) : PerspectiveCamera :=
  { PerspectiveCamera.Create cam_state.at_ cam_state.pos cam_state.up with
    sensor_size := (Flt.num (36 / 1000), Flt.num (36 / 1000))
    depth_range := (Flt.num 0, Flt.num 100000)
    focal_length := Flt.num (35 / 1000)
    focus_distance := Flt.num 1
    aperture := Flt.num 0 }

/-- What a run of `GenerateDataset` leaves: the events issued, the renderer camera,
and the failure that ended the run, if any. -/
structure Run where
  events : List Event
  m_camera : Option PerspectiveCamera
  failure : Option Failure

/-- The loop of `GenerateDataset` over the remaining camera states, `counter` being
the number of the first of them and `iterations` the bound of the inner loop. -/
def cameraLoop (env : Env) (m_spp : List Int) (outputs : List OutputDesc)
    (m_outputs : List Nat) (path : String) (iterations : Nat) :
    List CameraInfo → Int → Option PerspectiveCamera → Run
  | [], _, m_camera => { events := [], m_camera := m_camera, failure := none }
  | cam_state :: rest, counter, m_camera =>
    let camera :=
      match m_camera with
      | none => initialCamera cam_state
      | some c => c
    let updated := (UpdateCameraSettings cam_state camera).1
    let head := m_outputs.map (Event.Clear counter) ++ [Event.CompileScene counter]
    match renderLoop env m_spp outputs path counter iterations 0 with
    | (evs, some f) => { events := head ++ evs, m_camera := some updated, failure := some f }
    | (evs, none) =>
      let r := cameraLoop env m_spp outputs m_outputs path iterations rest (counter + 1)
        (some updated)
      { events := head ++ evs ++ r.events, m_camera := r.m_camera, failure := r.failure }

/-- `Render::GenerateDataset(path)` on the state of the `Render` object: the loaded
camera states, the checkpoint set, the output table, the output buffers and the
renderer camera. -/
def GenerateDataset (env : Env) (m_camera_states : List CameraInfo) (m_spp : List Int)
    (outputs : List OutputDesc) (m_outputs : List Nat) (m_camera : Option PerspectiveCamera)
    (path : String) : Run :=
  cameraLoop env m_spp outputs m_outputs path kNumIterations m_camera_states 1 m_camera

/-- The files written by the `SaveOutput` calls among the events: camera index,
channel, sample count and path written. -/
def savedFiles : List Event → List (Int × OutputDesc × Int × String)
  | [] => []
  | Event.SaveOutput k d i (some p) :: rest => (k, d, i, p) :: savedFiles rest
  | _ :: rest => savedFiles rest

/-- The effect of one event on the output buffer `o` of the renderer, seen as the
list of `counter` values of the render passes accumulated in the buffer since it
was last cleared: `Clear` of that buffer empties it, every `Render` pass adds one
pass, and nothing else touches it. -/
def bufferStep (o : Nat) (passes : List Int) : Event → List Int
  | Event.Clear _ output => if output = o then [] else passes
  | Event.Render counter => passes ++ [counter]
  | Event.CompileScene _ => passes
  | Event.SaveOutput _ _ _ _ => passes

/-- The passes accumulated in buffer `o` after the events `evs`, when it held
`passes` before them. -/
def passesIn (o : Nat) (passes : List Int) (evs : List Event) : List Int :=
  evs.foldl (bufferStep o) passes

/-- Every event of `evs` satisfies `P` together with the events before it. -/
def EachAfter (P : List Event → Event → Prop) (evs : List Event) : Prop :=
  ∀ pre e post, evs = pre ++ e :: post → P pre e

/-- At a `SaveOutput` call with sample count `s` for camera `k`, buffer `o`, which held
`passes` when the events started, holds exactly `s` passes, all of camera `k`. -/
def SavedAfterPasses (o : Nat) (passes : List Int) (pre : List Event) (e : Event) : Prop :=
  ∀ k d s p, e = Event.SaveOutput k d s p →
    ∃ n : Nat, (n : Int) = s ∧ passesIn o passes pre = List.replicate n k

/-- The files one camera is expected to produce: for every iteration `i` below
`kNumIterations` whose sample count `i + 1` is a checkpoint, one file per entry of
the output table, in the order of the run. -/
def filesOfCamera (env : Env) (m_spp : List Int) (outputs : List OutputDesc) (path : String)
    (k : Int) : List (Int × OutputDesc × Int × String) :=
  ((List.range' 0 kNumIterations).filter (fun i => ((i + 1 : Nat) : Int) ∈ m_spp)).flatMap
    (fun i => outputs.map (fun d =>
      (k, d, ((i + 1 : Nat) : Int), env.path_append path (fileName d k ((i + 1 : Nat) : Int)))))

/-! ## Sample inputs -/

/-- A camera document with two `camera` elements below `cam_list`, the second without
a `cpx` attribute, and a foreign element between them. -/
def sampleCameraDoc : XMLDocument :=
  ⟨[XMLElement.mk "cam_list" []
      [XMLElement.mk "camera" [("cpx", "1"), ("aperture", "2")] [],
       XMLElement.mk "note" [("cpx", "7")] [],
       XMLElement.mk "camera" [("tpy", "3")] []]]⟩

/-- A checkpoint document with the `iter_num` values 50, 10, 50. -/
def sampleSppDoc : XMLDocument :=
  ⟨[XMLElement.mk "spp_list" []
      [XMLElement.mk "spp" [("iter_num", "50")] [],
       XMLElement.mk "spp" [("iter_num", "10")] [],
       XMLElement.mk "spp" [("iter_num", "50")] []]]⟩

/-- Text conversions that read a few decimal numerals. -/
def sampleUtil : XMLUtil where
  ToFloat := fun s =>
    if s = "1" then some (Flt.num 1) else if s = "2" then some (Flt.num 2)
    else if s = "3" then some (Flt.num 3) else none
  ToInt64 := fun s =>
    if s = "10" then some 10 else if s = "50" then some 50 else none


/-- Two platforms, each with one CPU device (type 2) and one GPU device. -/
def twoGpuPlatforms : List (List Nat) :=
  [[CL_DEVICE_TYPE_GPU, 2], [2, CL_DEVICE_TYPE_GPU]]

/-- A camera state whose aperture is NaN, every other value being zero. -/
def nanApertureInfo : CameraInfo :=
  ⟨⟨0, 0, 0, 0⟩, ⟨0, 0, 0, 0⟩, ⟨0, 0, 0, 0⟩, 0, 0, Flt.nan⟩

/-- A camera state with position (1, 2, 3) and aperture 2, every other value zero. -/
def sampleInfo : CameraInfo :=
  ⟨⟨Flt.num 1, Flt.num 2, Flt.num 3, 0⟩, ⟨0, 0, 0, 0⟩, ⟨0, 0, 0, 0⟩, 0, 0, Flt.num 2⟩

/-- A light document whose first `light` element has no `type` attribute and whose
second has the type `laser`. -/
def untypedThenLaserDoc : XMLDocument :=
  ⟨[XMLElement.mk "light_list" []
      [XMLElement.mk "light" [("posx", "1")] [],
       XMLElement.mk "light" [("type", "laser")] []]]⟩

/-- A light document whose first `light` element is an image based light and whose
second has the type `laser`. -/
def iblThenLaserDoc : XMLDocument :=
  ⟨[XMLElement.mk "light_list" []
      [XMLElement.mk "light" [("type", "ibl"), ("tex", "sky.hdr")] [],
       XMLElement.mk "light" [("type", "laser")] []]]⟩

/-- A light document with a point light followed by a light of type `laser`. -/
def pointThenLaserDoc : XMLDocument :=
  ⟨[XMLElement.mk "light_list" []
      [XMLElement.mk "light" [("type", "point"), ("posx", "1")] [],
       XMLElement.mk "light" [("type", "laser")] []]]⟩

/-- A directional light with all vectors zero. -/
def sampleLight : Light :=
  ⟨LightKind.direct, ⟨0, 0, 0, 0⟩, ⟨0, 0, 0, 0⟩, ⟨0, 0, 0, 0⟩⟩

/-- An image loader that finds no file. -/
def loadNoImage : String → Option Texture :=
  fun _ => none

/-- An image loader that loads every file. -/
def loadAnyImage : String → Option Texture :=
  fun file => some ⟨file⟩

/-- A renderer buffer of width 2 and height 2: bottom row first, weights 2, 1, 4, 3. -/
def sampleBuffer : List (float3 ℚ) :=
  [⟨2, 4, 6, 2⟩, ⟨1, 1, 1, 1⟩, ⟨4, 8, 12, 4⟩, ⟨3, 6, 9, 3⟩]

/-! # Theorems -/

/-! ## The camera and checkpoint loaders -/

theorem foldl_push_eq_map {α β : Type} (f : α → β) (l : List α) (acc : List β) :
    l.foldl (fun st a => st ++ [f a]) acc = acc ++ l.map f := by
  induction l generalizing acc with
  | nil => simp
  | cons a l ih => simp [ih]

theorem toInt32_of_fits (v : Int) (h1 : -2 ^ 31 ≤ v) (h2 : v < 2 ^ 31) : toInt32 v = v := by
  unfold toInt32
  rw [Int.emod_eq_of_lt (by omega) (by omega)]
  omega

theorem mem_setInsert (v x : Int) (s : List Int) :
    x ∈ setInsert v s ↔ x = v ∨ x ∈ s := by
  induction s with
  | nil => simp [setInsert]
  | cons y ys ih =>
    unfold setInsert
    split_ifs with h1 h2
    · simp
    · subst h2
      simp
    · simp only [List.mem_cons, ih]
      tauto

theorem sorted_setInsert (v : Int) (s : List Int) (hs : s.Sorted (· < ·)) :
    (setInsert v s).Sorted (· < ·) := by
  induction s with
  | nil => simp [setInsert]
  | cons y ys ih =>
    unfold setInsert
    split_ifs with h1 h2
    · refine List.sorted_cons.2 ⟨?_, hs⟩
      intro b hb
      rcases List.mem_cons.1 hb with rfl | hb
      · exact h1
      · exact lt_trans h1 (List.rel_of_sorted_cons hs b hb)
    · exact hs
    · refine List.sorted_cons.2 ⟨?_, ih (List.Sorted.of_cons hs)⟩
      intro b hb
      rcases (mem_setInsert v b ys).1 hb with rfl | hb
      · omega
      · exact List.rel_of_sorted_cons hs b hb

theorem foldl_setInsert_mem {α : Type} (g : α → Int) (l : List α) (acc : List Int) (x : Int) :
    x ∈ l.foldl (fun s a => setInsert (g a) s) acc ↔ x ∈ l.map g ∨ x ∈ acc := by
  induction l generalizing acc with
  | nil => simp
  | cons a l ih =>
    simp only [List.foldl_cons, ih, mem_setInsert, List.map_cons, List.mem_cons]
    tauto

theorem foldl_setInsert_sorted {α : Type} (g : α → Int) (l : List α) (acc : List Int)
    (h : acc.Sorted (· < ·)) :
    (l.foldl (fun s a => setInsert (g a) s) acc).Sorted (· < ·) := by
  induction l generalizing acc with
  | nil => simpa using h
  | cons a l ih => exact ih _ (sorted_setInsert _ _ h)


theorem LoadCameraXml_eq_map (u : XMLUtil) (doc : XMLDocument) (prev : List CameraInfo)
    (root : XMLElement) (hroot : FirstChildElement doc.children "cam_list" = some root) :
    LoadCameraXml u doc prev =
      Except.ok ((ChildElements root.children "camera").map (readCameraInfo u)) := by
  simp [LoadCameraXml, hroot, foldl_push_eq_map, clear]

theorem LoadSppXml_eq_foldl (u : XMLUtil) (doc : XMLDocument) (prev : List Int)
    (root : XMLElement) (hroot : FirstChildElement doc.children "spp_list" = some root) :
    LoadSppXml u doc prev =
      Except.ok ((ChildElements root.children "spp").foldl
        (fun s elem => setInsert (toInt32 (elem.Int64Attribute u "iter_num")) s) []) := by
  simp [LoadSppXml, hroot, clear]

/-- C6: when the document has a `cam_list` root with N `camera` children, whatever
the previous camera list, `LoadCameraXml` succeeds and leaves exactly N entries, the
i-th one holding the values of the attributes `cpx/cpy/cpz`, `tpx/tpy/tpz`,
`upx/upy/upz`, `focal_length`, `focus_dist`, `aperture` of the i-th `camera` child in
document order; an absent attribute reads as `0.0`; the result does not depend on the
previous list. -/
theorem LoadCameraXml_entries (u : XMLUtil) (doc : XMLDocument) (prev : List CameraInfo)
    (root : XMLElement) (hroot : FirstChildElement doc.children "cam_list" = some root) :
    ∃ cams, LoadCameraXml u doc prev = Except.ok cams ∧
      cams.length = (ChildElements root.children "camera").length ∧
      (∀ i e, (ChildElements root.children "camera").get? i = some e →
        ∃ c, cams.get? i = some c ∧
          c.pos.x = e.FloatAttribute u "cpx" ∧ c.pos.y = e.FloatAttribute u "cpy" ∧
          c.pos.z = e.FloatAttribute u "cpz" ∧
          c.at_.x = e.FloatAttribute u "tpx" ∧ c.at_.y = e.FloatAttribute u "tpy" ∧
          c.at_.z = e.FloatAttribute u "tpz" ∧
          c.up.x = e.FloatAttribute u "upx" ∧ c.up.y = e.FloatAttribute u "upy" ∧
          c.up.z = e.FloatAttribute u "upz" ∧
          c.focal_length = e.FloatAttribute u "focal_length" ∧
          c.focus_distance = e.FloatAttribute u "focus_dist" ∧
          c.aperture = e.FloatAttribute u "aperture") ∧
      (∀ (e : XMLElement) (name : String), e.Attribute name = none →
        e.FloatAttribute u name = Flt.num 0) ∧
      (∀ prev2, LoadCameraXml u doc prev2 = Except.ok cams) := by
  refine ⟨_, LoadCameraXml_eq_map u doc prev root hroot, by simp, ?_, ?_, ?_⟩
  · intro i e he
    refine ⟨readCameraInfo u e, ?_, ?_⟩
    · simp only [List.get?_eq_getElem?] at he ⊢
      simp [List.getElem?_map, he]
    · simp [readCameraInfo]
  · intro e name h
    simp only [XMLElement.FloatAttribute, h]
    rfl
  · intro prev2
    exact LoadCameraXml_eq_map u doc prev2 root hroot

/-- Witness of C6 on `sampleCameraDoc`, loaded over a non-empty previous list. -/
theorem LoadCameraXml_entries_witness :
    FirstChildElement sampleCameraDoc.children "cam_list" =
        some (XMLElement.mk "cam_list" []
          [XMLElement.mk "camera" [("cpx", "1"), ("aperture", "2")] [],
           XMLElement.mk "note" [("cpx", "7")] [],
           XMLElement.mk "camera" [("tpy", "3")] []]) ∧
      ∃ cams, LoadCameraXml sampleUtil sampleCameraDoc
          [⟨⟨0, 0, 0, 0⟩, ⟨0, 0, 0, 0⟩, ⟨0, 0, 0, 0⟩, 0, 0, 0⟩] = Except.ok cams ∧
        cams.length = 2 := by
  refine ⟨rfl, ?_⟩
  obtain ⟨cams, h1, h2, -⟩ := LoadCameraXml_entries sampleUtil sampleCameraDoc
    [⟨⟨0, 0, 0, 0⟩, ⟨0, 0, 0, 0⟩, ⟨0, 0, 0, 0⟩, 0, 0, 0⟩] _ rfl
  exact ⟨cams, h1, h2.trans (by decide)⟩

/-- C7: when the document has an `spp_list` root whose `spp` children carry `iter_num`
values that each fit a 32-bit `int`, whatever the previous checkpoint set,
`LoadSppXml` succeeds and leaves a set (strictly increasing, hence duplicate-free)
whose members are exactly those values. -/
theorem LoadSppXml_set (u : XMLUtil) (doc : XMLDocument) (prev : List Int)
    (root : XMLElement) (hroot : FirstChildElement doc.children "spp_list" = some root)
    (hfit : ∀ e ∈ ChildElements root.children "spp",
      -2 ^ 31 ≤ e.Int64Attribute u "iter_num" ∧ e.Int64Attribute u "iter_num" < 2 ^ 31) :
    ∃ s, LoadSppXml u doc prev = Except.ok s ∧ s.Sorted (· < ·) ∧ s.Nodup ∧
      ∀ x, x ∈ s ↔
        x ∈ (ChildElements root.children "spp").map (fun e => e.Int64Attribute u "iter_num") := by
  have hsorted := foldl_setInsert_sorted
    (fun e : XMLElement => toInt32 (e.Int64Attribute u "iter_num"))
    (ChildElements root.children "spp") [] (by simp)
  refine ⟨_, LoadSppXml_eq_foldl u doc prev root hroot, hsorted, hsorted.nodup, ?_⟩
  intro x
  rw [foldl_setInsert_mem (fun e : XMLElement => toInt32 (e.Int64Attribute u "iter_num"))]
  simp only [List.mem_map, List.not_mem_nil, or_false]
  constructor
  · rintro ⟨e, he, rfl⟩
    exact ⟨e, he, (toInt32_of_fits _ (hfit e he).1 (hfit e he).2).symm⟩
  · rintro ⟨e, he, rfl⟩
    exact ⟨e, he, toInt32_of_fits _ (hfit e he).1 (hfit e he).2⟩

/-- Witness of C7 on `sampleSppDoc` (values 50, 10, 50), loaded over the previous set
`{7}`: the new set is `{10, 50}`. -/
theorem LoadSppXml_set_witness :
    LoadSppXml sampleUtil sampleSppDoc [7] = Except.ok [10, 50] ∧
      ∃ s, LoadSppXml sampleUtil sampleSppDoc [7] = Except.ok s ∧ s.Sorted (· < ·) ∧ s.Nodup ∧
        ∀ x, x ∈ s ↔ x ∈ [(50 : Int), 10, 50] := by
  refine ⟨rfl, ?_⟩
  exact LoadSppXml_set sampleUtil sampleSppDoc [7]
    (XMLElement.mk "spp_list" []
      [XMLElement.mk "spp" [("iter_num", "50")] [],
       XMLElement.mk "spp" [("iter_num", "10")] [],
       XMLElement.mk "spp" [("iter_num", "50")] []])
    rfl (by decide)

/-! ## Device selection and the constructor -/

/-- C3: on two platforms that both contain a GPU device, the constructor chooses
platform 1 (the last platform with a GPU) and its GPU device 1, while the first GPU
device in enumeration order is device 0 of platform 0. -/
theorem selectDevice_twoGpuPlatforms :
    selectDevice twoGpuPlatforms = some (1, 1) ∧
      (twoGpuPlatforms.getD 0 []).getD 0 0 = CL_DEVICE_TYPE_GPU := by
  decide

theorem createOutputs_no_LoadScene (w h : Nat) (l : List OutputDesc) (f d : String) :
    CtorCall.LoadScene f d ∉ createOutputs w h l := by
  induction l with
  | nil => simp [createOutputs]
  | cons o l ih => simp [createOutputs, ih]

/-- C4, as stated, fails: for the scene path `scene.obj`, which has no parent
directory, the constructor does fail, but only after platform enumeration, context
creation and the creation of factory, renderer, controller and the five outputs. -/
theorem RenderCtor_scene_obj_calls :
    posixEnv.has_parent_path "scene.obj" = false ∧
      RenderCtor posixEnv [[CL_DEVICE_TYPE_GPU]] "scene.obj" 640 480 =
        ([CtorCall.CreateAllPlatforms, CtorCall.CreateContext 0 0, CtorCall.CreateFactory,
          CtorCall.CreateRenderer, CtorCall.CreateSceneController,
          CtorCall.CreateOutput 640 480, CtorCall.SetOutput OutputType.kColor,
          CtorCall.CreateOutput 640 480, CtorCall.SetOutput OutputType.kViewShadingNormal,
          CtorCall.CreateOutput 640 480, CtorCall.SetOutput OutputType.kDepth,
          CtorCall.CreateOutput 640 480, CtorCall.SetOutput OutputType.kAlbedo,
          CtorCall.CreateOutput 640 480, CtorCall.SetOutput OutputType.kGloss],
         some (Failure.ex "can not read directory from input scene 'file_name'")) := by
  decide

/-- C4, amended: a scene path without a parent directory makes the constructor fail
and the scene is never loaded; when the selected device exists, the failure is one
of the two path errors and it is raised after platform enumeration, context
creation, and the creation of factory, renderer, controller and every output. -/
theorem RenderCtor_no_parent_path (env : Env) (platforms : List (List Nat))
    (file_name : String) (w h : Nat) (hpar : env.has_parent_path file_name = false) :
    (RenderCtor env platforms file_name w h).2 ≠ none ∧
      (∀ f d, CtorCall.LoadScene f d ∉ (RenderCtor env platforms file_name w h).1) ∧
      (∀ p d, selectDevice platforms = some (p, d) → d < (platforms.getD p []).length →
        (RenderCtor env platforms file_name w h).1 =
          [CtorCall.CreateAllPlatforms, CtorCall.CreateContext p d, CtorCall.CreateFactory,
            CtorCall.CreateRenderer, CtorCall.CreateSceneController] ++
            createOutputs w h outputs_collection ∧
        ((RenderCtor env platforms file_name w h).2 =
            some (Failure.ex "There is no any file to load") ∨
          (RenderCtor env platforms file_name w h).2 =
            some (Failure.ex "can not read directory from input scene 'file_name'"))) := by
  cases hsel : selectDevice platforms with
  | none => simp [RenderCtor, hsel]
  | some pd =>
    obtain ⟨p, d⟩ := pd
    simp only [RenderCtor, hsel]
    by_cases hd : d < (platforms.getD p []).length
    · rw [if_pos hd]
      by_cases hf : env.has_filename file_name = true
      · simp [hf, hpar, createOutputs_no_LoadScene]
      · simp [hf, createOutputs_no_LoadScene]
    · rw [if_neg hd]
      simp
      simpa using hd

/-- Witness of the amended C4 on the scene path `scene.obj`. -/
theorem RenderCtor_no_parent_path_witness :
    posixEnv.has_parent_path "scene.obj" = false ∧
      (RenderCtor posixEnv [[CL_DEVICE_TYPE_GPU]] "scene.obj" 640 480).2 ≠ none :=
  ⟨by decide,
    (RenderCtor_no_parent_path posixEnv [[CL_DEVICE_TYPE_GPU]] "scene.obj" 640 480
      (by decide)).1⟩

/-! ## `UpdateCameraSettings` -/

theorem Flt.ne_of_not_nan (a : Flt) (h : a.isNaN = false) : Flt.ne a a = false := by
  cases a with
  | num q => simp [Flt.ne]
  | nan => simp [Flt.isNaN] at h

theorem Flt.eq_of_ne_false (a b : Flt) (h : Flt.ne a b = false) : a = b := by
  cases a <;> cases b <;> simp_all [Flt.ne]

theorem UpdateCameraSettings_of_settled (c : CameraInfo) (cam : PerspectiveCamera)
    (h : c.settled cam) : UpdateCameraSettings c cam = (cam, []) := by
  obtain ⟨h1, h2, h3, h4, h5, h6⟩ := h
  simp [UpdateCameraSettings, h1, h2, h3, h4, h5, h6]

theorem float3.ne_same_vector (v : float3 Flt) (hx : v.x.isNaN = false) (hy : v.y.isNaN = false)
    (hz : v.z.isNaN = false) : float3.ne v v = false := by
  simp [float3.ne, Flt.ne_of_not_nan, hx, hy, hz]

theorem UpdateCameraSettings_settles (c : CameraInfo) (cam : PerspectiveCamera)
    (h : c.noNaN) : c.settled (UpdateCameraSettings c cam).1 := by
  obtain ⟨h1, h2, h3, h4, h5, h6, h7, h8, h9, h10, h11, h12⟩ := h
  have a1 := Flt.ne_of_not_nan _ h1
  have a2 := Flt.ne_of_not_nan _ h2
  have a3 := Flt.ne_of_not_nan _ h3
  have a4 := float3.ne_same_vector _ h4 h5 h6
  have a5 := float3.ne_same_vector _ h7 h8 h9
  have a6 := float3.ne_same_vector _ h10 h11 h12
  unfold UpdateCameraSettings CameraInfo.settled
  by_cases c1 : Flt.ne c.aperture cam.aperture = true <;>
  by_cases c2 : Flt.ne c.focal_length cam.focal_length = true <;>
  by_cases c3 : Flt.ne c.focus_distance cam.focus_distance = true <;>
  by_cases c4 : (float3.ne cam.position c.pos || float3.ne cam.forward c.at_ ||
      float3.ne cam.up c.up) = true <;>
  simp [c1, c2, c3, c4, a1, a2, a3, a4, a5, a6, PerspectiveCamera.LookAt] <;>
  simp_all

/-- C5, as stated, fails: with a camera state whose aperture is NaN, the second of two
consecutive applications of `UpdateCameraSettings` calls `SetAperture` again. -/
theorem UpdateCameraSettings_nan_second_call :
    (UpdateCameraSettings nanApertureInfo
      (UpdateCameraSettings nanApertureInfo
        (PerspectiveCamera.Create ⟨0, 0, 0, 0⟩ ⟨0, 0, 0, 0⟩ ⟨0, 0, 0, 0⟩)).1).2 =
      [CameraCall.SetAperture Flt.nan] := by
  decide

/-- C5, amended: for every camera and every camera state none of whose compared
components (aperture, focal length, focus distance, the x, y, z of position, look-at
and up) is NaN, on a renderer camera whose getters return what its setters stored,
the second of two consecutive applications of `UpdateCameraSettings` makes no call
on the camera and leaves it as the first application left it. -/
theorem UpdateCameraSettings_second_no_call (c : CameraInfo) (cam : PerspectiveCamera)
    (h : c.noNaN) :
    UpdateCameraSettings c (UpdateCameraSettings c cam).1 =
      ((UpdateCameraSettings c cam).1, []) :=
  UpdateCameraSettings_of_settled c _ (UpdateCameraSettings_settles c cam h)

/-- Witness of the amended C5 on `sampleInfo`, whose first application calls
`SetAperture` and `LookAt`. -/
theorem UpdateCameraSettings_second_no_call_witness :
    sampleInfo.noNaN ∧
      (UpdateCameraSettings sampleInfo
        (PerspectiveCamera.Create ⟨0, 0, 0, 0⟩ ⟨0, 0, 0, 0⟩ ⟨0, 0, 0, 0⟩)).2 =
        [CameraCall.SetAperture (Flt.num 2),
          CameraCall.LookAt ⟨Flt.num 1, Flt.num 2, Flt.num 3, 0⟩ ⟨0, 0, 0, 0⟩ ⟨0, 0, 0, 0⟩] ∧
      (UpdateCameraSettings sampleInfo
        (UpdateCameraSettings sampleInfo
          (PerspectiveCamera.Create ⟨0, 0, 0, 0⟩ ⟨0, 0, 0, 0⟩ ⟨0, 0, 0, 0⟩)).1).2 = [] := by
  have hn : sampleInfo.noNaN := by
    unfold CameraInfo.noNaN
    decide
  refine ⟨hn, by decide, ?_⟩
  rw [UpdateCameraSettings_second_no_call sampleInfo _ hn]

/-! ## `LoadLightXml` -/

theorem lightLoop_append (u : XMLUtil) (LoadImage : String → Option Texture)
    (elems : List XMLElement) (lights : List Light) :
    ∃ new, (lightLoop u LoadImage elems lights).1 = lights ++ new := by
  induction elems generalizing lights with
  | nil => exact ⟨[], by simp [lightLoop]⟩
  | cons e es ih =>
    unfold lightLoop
    cases h : readLight u LoadImage e with
    | error f => exact ⟨[], by simp⟩
    | ok l =>
      obtain ⟨new, hnew⟩ := ih (AttachLight lights l)
      refine ⟨l :: new, ?_⟩
      simp only [AttachLight] at hnew ⊢
      simp [hnew]

theorem createLight_invalid (u : XMLUtil) (LoadImage : String → Option Texture)
    (e : XMLElement) (t : String) (ht : e.Attribute "type" = some t)
    (h1 : t ≠ "point") (h2 : t ≠ "direct") (h3 : t ≠ "spot") (h4 : t ≠ "ibl") :
    readLight u LoadImage e = Except.error (Failure.ex ("Invalid light type " ++ t)) := by
  simp [readLight, createLight, ht, h1, h2, h3, h4]

theorem lightLoop_stops (u : XMLUtil) (LoadImage : String → Option Texture)
    (pre : List XMLElement) (bad : XMLElement) (post : List XMLElement) (f : Failure)
    (lights : List Light)
    (hpre : ∀ e ∈ pre, ∃ l, readLight u LoadImage e = Except.ok l)
    (hbad : readLight u LoadImage bad = Except.error f) :
    ∃ new, lightLoop u LoadImage (pre ++ bad :: post) lights = (lights ++ new, some f) ∧
      new.length = pre.length := by
  induction pre generalizing lights with
  | nil => exact ⟨[], by simp [lightLoop, hbad]⟩
  | cons e es ih =>
    obtain ⟨l, hl⟩ := hpre e (List.mem_cons_self _ _)
    obtain ⟨new, hnew, hlen⟩ :=
      ih (AttachLight lights l) (fun e2 he2 => hpre e2 (List.mem_cons_of_mem _ he2))
    refine ⟨l :: new, ?_, by simp [hlen]⟩
    simp only [AttachLight] at hnew
    show lightLoop u LoadImage (e :: (es ++ bad :: post)) lights = _
    simp only [lightLoop, hl, AttachLight]
    rw [hnew]
    simp

/-- C8, as stated, fails: each of `iblThenLaserDoc` and `untypedThenLaserDoc` contains
a `light` element of type `laser` as its second `light` element, yet `LoadLightXml`
stops on the first one (an image based light whose texture does not load; a light
without `type` attribute) and the failure is not the invalid-light-type error. -/
theorem LoadLightXml_earlier_failure :
    ((ChildElements
        [XMLElement.mk "light" [("type", "ibl"), ("tex", "sky.hdr")] [],
         XMLElement.mk "light" [("type", "laser")] []] "light").map
        (fun e => e.Attribute "type") = [some "ibl", some "laser"] ∧
      LoadLightXml sampleUtil loadNoImage iblThenLaserDoc [sampleLight] =
        ([sampleLight], some (Failure.image_load "sky.hdr"))) ∧
    ((ChildElements
        [XMLElement.mk "light" [("posx", "1")] [],
         XMLElement.mk "light" [("type", "laser")] []] "light").map
        (fun e => e.Attribute "type") = [none, some "laser"] ∧
      LoadLightXml sampleUtil loadAnyImage untypedThenLaserDoc [sampleLight] =
        ([sampleLight], some Failure.null_string)) := by
  decide

/-- C8, amended: whatever the document, the lights attached before the call are
still attached afterwards, unchanged and in the same order, at the front of the
lights of the scene; and when the first `light` element that does not load is one
whose `type` attribute is present and is none of `point`, `direct`, `spot`, `ibl`,
the call fails with the invalid-light-type error for that type, having attached
one light for each `light` element before it. -/
theorem LoadLightXml_invalid_type (u : XMLUtil) (LoadImage : String → Option Texture)
    (doc : XMLDocument) (lights : List Light) :
    (∃ new, (LoadLightXml u LoadImage doc lights).1 = lights ++ new) ∧
      ∀ (root : XMLElement) (pre : List XMLElement) (bad : XMLElement)
        (post : List XMLElement) (t : String),
        FirstChildElement doc.children "light_list" = some root →
        ChildElements root.children "light" = pre ++ bad :: post →
        (∀ e ∈ pre, ∃ l, readLight u LoadImage e = Except.ok l) →
        bad.Attribute "type" = some t →
        t ≠ "point" → t ≠ "direct" → t ≠ "spot" → t ≠ "ibl" →
        (LoadLightXml u LoadImage doc lights).2 =
            some (Failure.ex ("Invalid light type " ++ t)) ∧
          ∃ new, (LoadLightXml u LoadImage doc lights).1 = lights ++ new ∧
            new.length = pre.length := by
  constructor
  · unfold LoadLightXml
    cases h : FirstChildElement doc.children "light_list" with
    | none => exact ⟨[], by simp⟩
    | some root => exact lightLoop_append u LoadImage _ lights
  · intro root pre bad post t hroot hsplit hpre ht h1 h2 h3 h4
    obtain ⟨new, hnew, hlen⟩ := lightLoop_stops u LoadImage pre bad post _ lights hpre
      (createLight_invalid u LoadImage bad t ht h1 h2 h3 h4)
    have hL : LoadLightXml u LoadImage doc lights =
        (lights ++ new, some (Failure.ex ("Invalid light type " ++ t))) := by
      simp only [LoadLightXml, hroot, hsplit, hnew]
    rw [hL]
    exact ⟨rfl, new, rfl, hlen⟩

/-- Witness of the amended C8 on `pointThenLaserDoc`: the point light is attached
behind the light already present, then the type `laser` is rejected. -/
theorem LoadLightXml_invalid_type_witness :
    (LoadLightXml sampleUtil loadAnyImage pointThenLaserDoc [sampleLight]).2 =
        some (Failure.ex "Invalid light type laser") ∧
      ∃ new, (LoadLightXml sampleUtil loadAnyImage pointThenLaserDoc [sampleLight]).1 =
        [sampleLight] ++ new ∧ new.length = 1 := by
  have h := (LoadLightXml_invalid_type sampleUtil loadAnyImage pointThenLaserDoc
    [sampleLight]).2
    (XMLElement.mk "light_list" []
      [XMLElement.mk "light" [("type", "point"), ("posx", "1")] [],
       XMLElement.mk "light" [("type", "laser")] []])
    [XMLElement.mk "light" [("type", "point"), ("posx", "1")] []]
    (XMLElement.mk "light" [("type", "laser")] []) [] "laser" rfl rfl
    (by
      intro e he
      rw [List.mem_singleton] at he
      subst he
      exact ⟨_, rfl⟩)
    rfl (by decide) (by decide) (by decide) (by decide)
  exact h

/-! ## The file name built by `SaveOutput` -/

theorem digitChar_val (m : Nat) (h : m < 10) : (Nat.digitChar m).toNat - 48 = m := by
  interval_cases m <;> rfl

theorem digitChar_mem (m : Nat) (h : m < 10) :
    Nat.digitChar m ∈ ['0', '1', '2', '3', '4', '5', '6', '7', '8', '9'] := by
  interval_cases m <;> decide

theorem toDigitsCore_acc (fuel n : Nat) (ds : List Char) :
    Nat.toDigitsCore 10 fuel n ds = Nat.toDigitsCore 10 fuel n [] ++ ds := by
  induction fuel generalizing n ds with
  | zero => simp [Nat.toDigitsCore]
  | succ fuel ih =>
    simp only [Nat.toDigitsCore]
    split_ifs with h
    · simp
    · rw [ih (n / 10) (_ :: ds), ih (n / 10) [_]]
      simp

theorem toDigitsCore_value (fuel n : Nat) (h : n < fuel) :
    decimalValue (Nat.toDigitsCore 10 fuel n []) = n := by
  induction fuel generalizing n with
  | zero => omega
  | succ fuel ih =>
    simp only [Nat.toDigitsCore]
    split_ifs with h0
    · simp only [decimalValue, List.foldl_cons, List.foldl_nil]
      rw [digitChar_val _ (Nat.mod_lt _ (by norm_num))]
      omega
    · rw [toDigitsCore_acc]
      have := ih (n / 10) (by omega)
      simp only [decimalValue, List.foldl_append, List.foldl_cons, List.foldl_nil] at this ⊢
      rw [this, digitChar_val _ (Nat.mod_lt _ (by norm_num))]
      omega

theorem toDigitsCore_digits (fuel n : Nat) :
    ∀ c ∈ Nat.toDigitsCore 10 fuel n [],
      c ∈ ['0', '1', '2', '3', '4', '5', '6', '7', '8', '9'] := by
  induction fuel generalizing n with
  | zero => simp [Nat.toDigitsCore]
  | succ fuel ih =>
    intro c hc
    simp only [Nat.toDigitsCore] at hc
    split_ifs at hc with h0
    · rw [List.mem_singleton] at hc
      subst hc
      exact digitChar_mem _ (Nat.mod_lt _ (by norm_num))
    · rw [toDigitsCore_acc, List.mem_append, List.mem_singleton] at hc
      rcases hc with hc | hc
      · exact ih _ c hc
      · subst hc
        exact digitChar_mem _ (Nat.mod_lt _ (by norm_num))

theorem toDigits_injective (a b : Nat) (h : Nat.toDigits 10 a = Nat.toDigits 10 b) : a = b := by
  have ha := toDigitsCore_value (a + 1) a (by omega)
  have hb := toDigitsCore_value (b + 1) b (by omega)
  unfold Nat.toDigits at h
  rw [h] at ha
  omega

theorem toDigits_head_digit (a : Nat) :
    ∃ c cs, Nat.toDigits 10 a = c :: cs ∧
      c ∈ ['0', '1', '2', '3', '4', '5', '6', '7', '8', '9'] := by
  cases hds : Nat.toDigits 10 a with
  | nil =>
    unfold Nat.toDigits at hds
    simp only [Nat.toDigitsCore] at hds
    split_ifs at hds
    rw [toDigitsCore_acc] at hds
    simp at hds
  | cons c cs =>
    refine ⟨c, cs, rfl, ?_⟩
    have := toDigitsCore_digits (a + 1) a c
    unfold Nat.toDigits at hds
    rw [hds] at this
    exact this (List.mem_cons_self _ _)

theorem toString_int_data_ofNat (k : Nat) :
    (toString (Int.ofNat k)).data = Nat.toDigits 10 k := rfl

theorem toString_int_data_negSucc (k : Nat) :
    (toString (Int.negSucc k)).data = '-' :: Nat.toDigits 10 (k + 1) := rfl

theorem toString_int_no_underscore (k : Int) : '_' ∉ (toString k).data := by
  intro h
  cases k with
  | ofNat k =>
    rw [toString_int_data_ofNat] at h
    have := toDigitsCore_digits (k + 1) k _ h
    revert this
    decide
  | negSucc k =>
    rw [toString_int_data_negSucc] at h
    rcases List.mem_cons.1 h with h | h
    · revert h
      decide
    · have := toDigitsCore_digits (k + 1 + 1) (k + 1) _ h
      revert this
      decide

theorem toString_int_injective (a b : Int) (h : (toString a).data = (toString b).data) :
    a = b := by
  cases a with
  | ofNat a =>
    cases b with
    | ofNat b =>
      rw [toString_int_data_ofNat, toString_int_data_ofNat] at h
      rw [toDigits_injective a b h]
    | negSucc b =>
      rw [toString_int_data_ofNat, toString_int_data_negSucc] at h
      obtain ⟨c, cs, hc, hmem⟩ := toDigits_head_digit a
      rw [hc] at h
      injection h with h1 _
      subst h1
      exact absurd hmem (by decide)
  | negSucc a =>
    cases b with
    | ofNat b =>
      rw [toString_int_data_ofNat, toString_int_data_negSucc] at h
      obtain ⟨c, cs, hc, hmem⟩ := toDigits_head_digit b
      rw [hc] at h
      injection h with h1 _
      subst h1
      exact absurd hmem (by decide)
    | negSucc b =>
      rw [toString_int_data_negSucc, toString_int_data_negSucc] at h
      injection h with _ h2
      have := toDigits_injective _ _ h2
      have hab : a = b := by omega
      rw [hab]

theorem append_sep_cancel {α : Type} (c : α) (a a2 r r2 : List α) (ha : c ∉ a) (ha2 : c ∉ a2)
    (h : a ++ c :: r = a2 ++ c :: r2) : a = a2 ∧ r = r2 := by
  induction a generalizing a2 with
  | nil =>
    cases a2 with
    | nil => simpa using h
    | cons x xs =>
      simp only [List.nil_append, List.cons_append, List.cons.injEq] at h
      exact absurd (by rw [h.1]; exact List.mem_cons_self _ _) ha2
  | cons y ys ih =>
    cases a2 with
    | nil =>
      simp only [List.nil_append, List.cons_append, List.cons.injEq] at h
      exact absurd (by rw [h.1]; exact List.mem_cons_self _ _) ha
    | cons x xs =>
      simp only [List.cons_append, List.cons.injEq] at h
      obtain ⟨hrec, hr⟩ := ih xs (fun hm => ha (List.mem_cons_of_mem _ hm))
        (fun hm => ha2 (List.mem_cons_of_mem _ hm)) h.2
      exact ⟨by rw [h.1, hrec], hr⟩

theorem fileName_data (d : OutputDesc) (k s : Int) :
    (fileName d k s).data =
      ['c', 'a', 'm', '_'] ++ ((toString k).data ++ '_' ::
        (d.name.data ++ (['_', 's', 'p', 'p', '_'] ++ ((toString s).data ++
          ['.', 'p', 'n', 'g'])))) := by
  simp [fileName, String.data_append]

/-- C10: the file name built by `SaveOutput` determines its inputs: for all integer
camera indices and sample counts and all channel names of `outputs_collection`
(`color`, `view_shading_depth`, `depth`, `albedo`, `gloss`), two equal names
`cam_<k>_<name>_spp_<s>.png` have the same camera index, channel name and sample
count. -/
theorem fileName_injective (d1 d2 : OutputDesc) (k1 k2 s1 s2 : Int)
    (h1 : d1.name ∈ outputs_collection.map OutputDesc.name)
    (h2 : d2.name ∈ outputs_collection.map OutputDesc.name)
    (h : fileName d1 k1 s1 = fileName d2 k2 s2) :
    k1 = k2 ∧ d1.name = d2.name ∧ s1 = s2 := by
  have hd := congrArg String.data h
  rw [fileName_data, fileName_data] at hd
  have hd := List.append_cancel_left hd
  obtain ⟨hk, hrest⟩ := append_sep_cancel '_' _ _ _ _
    (toString_int_no_underscore k1) (toString_int_no_underscore k2) hd
  have hk := toString_int_injective _ _ hk
  have hname : d1.name = d2.name := by
    simp only [outputs_collection, List.map_cons, List.map_nil, List.mem_cons,
      List.mem_singleton, List.not_mem_nil, or_false] at h1 h2
    rcases h1 with h1 | h1 | h1 | h1 | h1 <;> rcases h2 with h2 | h2 | h2 | h2 | h2 <;>
      rw [h1, h2] at hrest ⊢ <;> simp at hrest
  refine ⟨hk, hname, ?_⟩
  rw [hname] at hrest
  have h3 := List.append_cancel_left (List.append_cancel_left hrest)
  exact toString_int_injective _ _ (List.append_cancel_right h3)

/-- Witness of C10 on the `color` entry, before and after the constructor has filled
in its width and height. -/
theorem fileName_injective_witness :
    fileName ⟨OutputType.kColor, "color", "png", 0, 0⟩ 1 10 = "cam_1_color_spp_10.png" ∧
      (1 : Int) = 1 ∧ ("color" : String) = "color" ∧ (10 : Int) = 10 :=
  ⟨by decide,
    fileName_injective ⟨OutputType.kColor, "color", "png", 0, 0⟩
      ⟨OutputType.kColor, "color", "png", 640, 480⟩ 1 1 10 10 (by decide) (by decide)
      (by decide)⟩

/-! ## The pixel loops of `SaveOutput` -/

theorem foldl_modify_untouched {ι α : Type} (g : ι → Nat) (F : ι → α → α) (l : List ι)
    (img : List α) (j : Nat) (h : ∀ i ∈ l, g i ≠ j) :
    (l.foldl (fun im i => im.modify (F i) (g i)) img)[j]? = img[j]? := by
  induction l generalizing img with
  | nil => rfl
  | cons i l ih =>
    rw [List.foldl_cons, ih _ (fun i2 hi2 => h i2 (List.mem_cons_of_mem _ hi2)),
      List.getElem?_modify_ne _ _ (h i (List.mem_cons_self _ _))]

theorem foldl_modify_hit {ι α : Type} (g : ι → Nat) (F : ι → α → α) (l : List ι)
    (img : List α) (i0 : ι) (hmem : i0 ∈ l) (hnd : l.Nodup)
    (hinj : ∀ i ∈ l, g i = g i0 → i = i0) :
    (l.foldl (fun im i => im.modify (F i) (g i)) img)[g i0]? = (img[g i0]?).map (F i0) := by
  induction l generalizing img with
  | nil => simp at hmem
  | cons i l ih =>
    rw [List.foldl_cons]
    rw [List.nodup_cons] at hnd
    by_cases hi : i = i0
    · subst hi
      rw [foldl_modify_untouched g F l _ (g i)]
      · simp
      · intro i2 hi2 heq
        exact hnd.1 (hinj i2 (List.mem_cons_of_mem _ hi2) heq ▸ hi2)
    · have hmem2 : i0 ∈ l := by
        rcases List.mem_cons.1 hmem with h | h
        · exact absurd h.symm hi
        · exact h
      rw [ih _ hmem2 hnd.2 (fun i2 hi2 => hinj i2 (List.mem_cons_of_mem _ hi2))]
      rw [List.getElem?_modify_ne]
      intro heq
      exact hi (hinj i (List.mem_cons_self _ _) heq)

theorem nested_foldl_product {α β γ : Type} (S : α → β → γ → γ) (l1 : List α) (l2 : List β)
    (init : γ) :
    l1.foldl (fun acc a => l2.foldl (fun acc b => S a b acc) acc) init =
      (l1 ×ˢ l2).foldl (fun acc p => S p.1 p.2 acc) init := by
  induction l1 generalizing init with
  | nil => rfl
  | cons a l1 ih =>
    rw [List.foldl_cons, ih, List.product_cons, List.foldl_append, List.foldl_map]

theorem pixel_index_lt (width height x y : Nat) (hx : x < width) (hy : y < height) :
    y * width + x < width * height := by
  calc y * width + x < y * width + width := by omega
    _ = (y + 1) * width := by ring
    _ ≤ height * width := Nat.mul_le_mul_right _ hy
    _ = width * height := Nat.mul_comm _ _

theorem pixel_index_injective (width x y x2 y2 : Nat) (hx : x < width) (hx2 : x2 < width)
    (h : y * width + x = y2 * width + x2) : y = y2 ∧ x = x2 := by
  have hw : 0 < width := by omega
  have h1 : (y * width + x) / width = y := by
    rw [Nat.add_comm, Nat.add_mul_div_right _ _ hw, Nat.div_eq_of_lt hx, Nat.zero_add]
  have h2 : (y2 * width + x2) / width = y2 := by
    rw [Nat.add_comm, Nat.add_mul_div_right _ _ hw, Nat.div_eq_of_lt hx2, Nat.zero_add]
  have hy : y = y2 := by rw [← h1, ← h2, h]
  subst hy
  exact ⟨rfl, by omega⟩

/-- C2: for a renderer buffer of `width * height` pixels with non-zero weights, that
many pixels being addressable with 32-bit indices, and for `x < width`,
`y < height`, the pixel that `SaveOutput` leaves at index `y * width + x` of the
image has the red, green and blue of the renderer pixel at index
`(height - 1 - y) * width + x`, each divided by that pixel's weight, over exact
arithmetic; its fourth component is the zero the image was created with. -/
theorem SaveOutput_image_data_pixel (width height : Nat) (output_data : List (float3 ℚ))
    (x y : Nat) (hlen : output_data.length = width * height) (hfit : width * height ≤ 2 ^ 32)
    (hweight : ∀ p ∈ output_data, p.w ≠ 0) (hx : x < width) (hy : y < height) :
    ∃ src px, output_data[(height - 1 - y) * width + x]? = some src ∧
      (SaveOutput_image_data width height output_data)[y * width + x]? = some px ∧
      px.x = src.x / src.w ∧ px.y = src.y / src.w ∧ px.z = src.z / src.w ∧
      px.x * src.w = src.x ∧ px.y * src.w = src.y ∧ px.z * src.w = src.z ∧ px.w = 0 := by
  have hsrc_lt : (height - 1 - y) * width + x < width * height :=
    pixel_index_lt width height x (height - 1 - y) hx (by omega)
  have hdst_lt : y * width + x < width * height := pixel_index_lt width height x y hx hy
  have hsrc_in : (height - 1 - y) * width + x < output_data.length := by omega
  refine ⟨output_data[(height - 1 - y) * width + x],
    { x := (scaleByInvW output_data[(height - 1 - y) * width + x]).x
      y := (scaleByInvW output_data[(height - 1 - y) * width + x]).y
      z := (scaleByInvW output_data[(height - 1 - y) * width + x]).z
      w := 0 }, List.getElem?_eq_getElem hsrc_in, ?_⟩
  have hw : (output_data[(height - 1 - y) * width + x]).w ≠ 0 :=
    hweight _ (List.getElem_mem hsrc_in)
  have hfold : SaveOutput_image_data width height output_data =
      (List.range height ×ˢ List.range width).foldl
        (fun im p => im.modify
          (fun q => { q with
            x := (scaleByInvW (output_data.getD
              (((height - 1 - p.1) * width + p.2) % 2 ^ 32) ⟨0, 0, 0, 0⟩)).x
            y := (scaleByInvW (output_data.getD
              (((height - 1 - p.1) * width + p.2) % 2 ^ 32) ⟨0, 0, 0, 0⟩)).y
            z := (scaleByInvW (output_data.getD
              (((height - 1 - p.1) * width + p.2) % 2 ^ 32) ⟨0, 0, 0, 0⟩)).z })
          ((p.1 * width + p.2) % 2 ^ 32))
        (List.replicate output_data.length ⟨0, 0, 0, 0⟩) := by
    unfold SaveOutput_image_data
    exact nested_foldl_product (fun yy xx im => savePixel width height output_data yy xx im)
      (List.range height) (List.range width) _
  have hidx : (y * width + x) % 2 ^ 32 = y * width + x := Nat.mod_eq_of_lt (by omega)
  have hsidx : ((height - 1 - y) * width + x) % 2 ^ 32 = (height - 1 - y) * width + x :=
    Nat.mod_eq_of_lt (by omega)
  have hhit := foldl_modify_hit
    (fun p : Nat × Nat => (p.1 * width + p.2) % 2 ^ 32)
    (fun (p : Nat × Nat) (q : float3 ℚ) => { q with
      x := (scaleByInvW (output_data.getD
        (((height - 1 - p.1) * width + p.2) % 2 ^ 32) ⟨0, 0, 0, 0⟩)).x
      y := (scaleByInvW (output_data.getD
        (((height - 1 - p.1) * width + p.2) % 2 ^ 32) ⟨0, 0, 0, 0⟩)).y
      z := (scaleByInvW (output_data.getD
        (((height - 1 - p.1) * width + p.2) % 2 ^ 32) ⟨0, 0, 0, 0⟩)).z })
    (List.range height ×ˢ List.range width)
    (List.replicate output_data.length ⟨0, 0, 0, 0⟩) (y, x)
    (by simp [hx, hy])
    ((List.nodup_range height).product (List.nodup_range width))
    (by
      rintro ⟨y2, x2⟩ hp heq
      simp at hp
      have hlt2 := pixel_index_lt width height x2 y2 hp.2 hp.1
      dsimp only at heq
      rw [Nat.mod_eq_of_lt (by omega), hidx] at heq
      obtain ⟨e1, e2⟩ := pixel_index_injective width x2 y2 x y hp.2 hx heq
      rw [e1, e2])
  simp only [hidx, hsidx] at hhit
  rw [hfold, hhit]
  have hdst_in : y * width + x < output_data.length := by omega
  rw [List.getElem?_replicate, if_pos hdst_in, List.getD_eq_getElem _ _ hsrc_in]
  refine ⟨rfl, ?_⟩
  simp only [scaleByInvW]
  refine ⟨by ring, by ring, by ring, ?_, ?_, ?_, trivial⟩ <;> field_simp

/-- Witness of C2 on `sampleBuffer` at `x = 0`, `y = 0`: the image pixel 0 comes from
the renderer pixel 2. -/
theorem SaveOutput_image_data_pixel_witness :
    sampleBuffer.length = 2 * 2 ∧ 2 * 2 ≤ 2 ^ 32 ∧ (∀ p ∈ sampleBuffer, p.w ≠ 0) ∧
      ∃ src px, sampleBuffer[(2 - 1 - 0) * 2 + 0]? = some src ∧
        (SaveOutput_image_data 2 2 sampleBuffer)[0 * 2 + 0]? = some px ∧
        px.x = src.x / src.w ∧ px.y = src.y / src.w ∧ px.z = src.z / src.w ∧
        px.x * src.w = src.x ∧ px.y * src.w = src.y ∧ px.z * src.w = src.z ∧ px.w = 0 := by
  have hweight : ∀ p ∈ sampleBuffer, p.w ≠ 0 := by
    simp [sampleBuffer]
  exact ⟨rfl, by norm_num, hweight,
    SaveOutput_image_data_pixel 2 2 sampleBuffer 0 0 rfl (by norm_num) hweight (by norm_num)
      (by norm_num)⟩

/-! ## The order of clears, render passes and saves in `GenerateDataset` -/

theorem eachAfter_nil (P : List Event → Event → Prop) : EachAfter P [] := by
  intro pre e post h
  simp at h

theorem eachAfter_cons (P : List Event → Event → Prop) (e : Event) (evs : List Event)
    (h1 : P [] e) (h2 : EachAfter (fun pre e2 => P (e :: pre) e2) evs) :
    EachAfter P (e :: evs) := by
  intro pre e2 post h
  cases pre with
  | nil =>
    simp only [List.nil_append, List.cons.injEq] at h
    rw [← h.1]
    exact h1
  | cons a pre =>
    simp only [List.cons_append, List.cons.injEq] at h
    rw [← h.1]
    exact h2 pre e2 post h.2

theorem eachAfter_append (P : List Event → Event → Prop) (a b : List Event)
    (h1 : EachAfter P a) (h2 : EachAfter (fun pre e => P (a ++ pre) e) b) :
    EachAfter P (a ++ b) := by
  induction a generalizing P with
  | nil => simpa using h2
  | cons x a ih =>
    rw [List.cons_append]
    refine eachAfter_cons P x (a ++ b) (h1 [] x a rfl) (ih _ ?_ ?_)
    · intro pre e post h
      exact h1 (x :: pre) e post (by rw [h]; rfl)
    · simpa using h2

theorem passesIn_append (o : Nat) (passes : List Int) (a b : List Event) :
    passesIn o passes (a ++ b) = passesIn o (passesIn o passes a) b := by
  simp [passesIn, List.foldl_append]

theorem passesIn_cons (o : Nat) (passes : List Int) (e : Event) (b : List Event) :
    passesIn o passes (e :: b) = passesIn o (bufferStep o passes e) b := rfl

theorem saveOutputs_events (env : Env) (path : String) (k s : Int) (descs : List OutputDesc) :
    ∀ e ∈ (saveOutputs env path k s descs).1, ∃ d p, e = Event.SaveOutput k d s p := by
  induction descs with
  | nil => simp [saveOutputs]
  | cons d descs ih =>
    intro e he
    unfold saveOutputs at he
    cases hs : SaveOutput env d path k s with
    | error f =>
      simp only [hs, List.mem_singleton] at he
      exact ⟨d, none, he⟩
    | ok file =>
      simp only [hs, List.mem_cons] at he
      rcases he with he | he
      · exact ⟨d, some file, he⟩
      · exact ih e he

theorem passesIn_saved (o : Nat) (passes : List Int) (k s : Int) (l : List Event)
    (h : ∀ e ∈ l, ∃ d p, e = Event.SaveOutput k d s p) : passesIn o passes l = passes := by
  induction l with
  | nil => rfl
  | cons e l ih =>
    obtain ⟨d, p, he⟩ := h e (List.mem_cons_self _ _)
    rw [passesIn_cons, he]
    exact ih (fun e2 he2 => h e2 (List.mem_cons_of_mem _ he2))

theorem eachAfter_saved (o : Nat) (k : Int) (n : Nat) (l : List Event)
    (h : ∀ e ∈ l, ∃ d p, e = Event.SaveOutput k d (n : Int) p) :
    EachAfter (SavedAfterPasses o (List.replicate n k)) l := by
  intro pre e post hsplit k2 d2 s2 p2 he
  have hmem : e ∈ l := by rw [hsplit]; simp
  obtain ⟨d, p, he2⟩ := h e hmem
  rw [he2] at he
  injection he with hk _ hs _
  refine ⟨n, hs, ?_⟩
  rw [← hk]
  apply passesIn_saved o _ k (n : Int) pre
  intro e3 he3
  exact h e3 (by rw [hsplit]; simp [he3])

theorem eachAfter_renderLoop (env : Env) (m_spp : List Int) (outputs : List OutputDesc)
    (path : String) (k : Int) (o : Nat) (n i : Nat) :
    EachAfter (SavedAfterPasses o (List.replicate i k))
      (renderLoop env m_spp outputs path k n i).1 := by
  induction n generalizing i with
  | zero => exact eachAfter_nil _
  | succ n ih =>
    have hstep : ∀ pre e, SavedAfterPasses o (List.replicate i k) (Event.Render k :: pre) e =
        SavedAfterPasses o (List.replicate (i + 1) k) pre e := by
      intro pre e
      simp only [SavedAfterPasses, passesIn_cons, bufferStep, List.replicate_succ']
    have hrender : SavedAfterPasses o (List.replicate i k) [] (Event.Render k) := by
      intro k2 d2 s2 p2 he
      cases he
    unfold renderLoop
    split_ifs with hmem
    · have hev := saveOutputs_events env path k ((i + 1 : Nat) : Int) outputs
      cases hso : saveOutputs env path k ((i + 1 : Nat) : Int) outputs with
      | mk saved fail =>
        rw [hso] at hev
        cases fail with
        | some f =>
          refine eachAfter_cons _ _ _ hrender ?_
          simp only [hstep]
          exact eachAfter_saved o k (i + 1) saved hev
        | none =>
          refine eachAfter_cons _ _ _ hrender ?_
          simp only [hstep]
          refine eachAfter_append _ _ _ (eachAfter_saved o k (i + 1) saved hev) ?_
          have hsame : ∀ pre e, SavedAfterPasses o (List.replicate (i + 1) k) (saved ++ pre) e =
              SavedAfterPasses o (List.replicate (i + 1) k) pre e := by
            intro pre e
            simp only [SavedAfterPasses, passesIn_append,
              passesIn_saved o _ k ((i + 1 : Nat) : Int) saved hev]
          simp only [hsame]
          exact ih (i + 1)
    · refine eachAfter_cons _ _ _ hrender ?_
      simp only [hstep]
      exact ih (i + 1)

theorem passesIn_clears (o : Nat) (passes : List Int) (k : Int) (m_outputs : List Nat)
    (ho : o ∈ m_outputs) : passesIn o passes (m_outputs.map (Event.Clear k)) = [] := by
  induction m_outputs generalizing passes with
  | nil => simp at ho
  | cons x xs ih =>
    rw [List.map_cons, passesIn_cons]
    by_cases hx : x = o
    · simp only [bufferStep, hx, if_true]
      by_cases ho2 : o ∈ xs
      · exact ih _ ho2
      · have : ∀ (ys : List Nat), o ∉ ys → passesIn o [] (ys.map (Event.Clear k)) = [] := by
          intro ys
          induction ys with
          | nil => intro _; rfl
          | cons y ys ihy =>
            intro hy
            rw [List.map_cons, passesIn_cons]
            have hne : y ≠ o := fun h => hy (h ▸ List.mem_cons_self _ _)
            simp only [bufferStep, hne, if_false]
            exact ihy (fun h => hy (List.mem_cons_of_mem _ h))
        exact this xs ho2
    · simp only [bufferStep, hx, if_false]
      rcases List.mem_cons.1 ho with h | h
      · exact absurd h.symm hx
      · exact ih _ h

theorem eachAfter_not_saved (P : List Event → Event → Prop) (l : List Event)
    (hP : ∀ pre e, (∀ k d s p, e ≠ Event.SaveOutput k d s p) → P pre e)
    (h : ∀ e ∈ l, ∀ k d s p, e ≠ Event.SaveOutput k d s p) : EachAfter P l := by
  intro pre e post hsplit
  exact hP pre e (h e (by rw [hsplit]; simp))

theorem cameraLoop_cons (env : Env) (m_spp : List Int) (outputs : List OutputDesc)
    (m_outputs : List Nat) (path : String) (iterations : Nat) (c : CameraInfo)
    (cams : List CameraInfo) (counter : Int) (m_camera : Option PerspectiveCamera) :
    cameraLoop env m_spp outputs m_outputs path iterations (c :: cams) counter m_camera =
      (let updated := (UpdateCameraSettings c
          (match m_camera with
           | none => initialCamera c
           | some c2 => c2)).1
      let head := m_outputs.map (Event.Clear counter) ++ [Event.CompileScene counter]
      match renderLoop env m_spp outputs path counter iterations 0 with
      | (evs, some f) => { events := head ++ evs, m_camera := some updated, failure := some f }
      | (evs, none) =>
        let r := cameraLoop env m_spp outputs m_outputs path iterations cams (counter + 1)
          (some updated)
        { events := head ++ evs ++ r.events, m_camera := r.m_camera, failure := r.failure }) :=
  rfl

theorem eachAfter_cameraLoop (env : Env) (m_spp : List Int) (outputs : List OutputDesc)
    (m_outputs : List Nat) (path : String) (iterations : Nat) (o : Nat) (ho : o ∈ m_outputs)
    (cams : List CameraInfo) (counter : Int) (m_camera : Option PerspectiveCamera)
    (passes : List Int) :
    EachAfter (SavedAfterPasses o passes)
      (cameraLoop env m_spp outputs m_outputs path iterations cams counter m_camera).events := by
  induction cams generalizing counter m_camera passes with
  | nil => exact eachAfter_nil _
  | cons c cams ih =>
    have hhead : ∀ pre e,
        SavedAfterPasses o passes
          ((m_outputs.map (Event.Clear counter) ++ [Event.CompileScene counter]) ++ pre) e =
        SavedAfterPasses o (List.replicate 0 counter) pre e := by
      intro pre e
      simp only [SavedAfterPasses, passesIn_append, passesIn_clears o _ counter m_outputs ho,
        List.replicate_zero]
      rfl
    have hheadOk : EachAfter (SavedAfterPasses o passes)
        (m_outputs.map (Event.Clear counter) ++ [Event.CompileScene counter]) := by
      apply eachAfter_not_saved
      · intro pre e hne k d s p he
        exact absurd he (hne k d s p)
      · intro e he k d s p heq
        subst heq
        simp at he
    have hloop := eachAfter_renderLoop env m_spp outputs path counter o iterations 0
    rw [cameraLoop_cons]
    generalize renderLoop env m_spp outputs path counter iterations 0 = r at hloop ⊢
    obtain ⟨evs, fail⟩ := r
    cases fail with
    | some f =>
      dsimp only
      refine eachAfter_append _ _ _ hheadOk ?_
      simp only [hhead]
      exact hloop
    | none =>
      dsimp only
      rw [List.append_assoc]
      refine eachAfter_append _ _ _ hheadOk ?_
      simp only [hhead]
      refine eachAfter_append _ _ _ hloop ?_
      have hshift : ∀ pre e, SavedAfterPasses o (List.replicate 0 counter) (evs ++ pre) e =
          SavedAfterPasses o (passesIn o (List.replicate 0 counter) evs) pre e := by
        intro pre e
        simp only [SavedAfterPasses, passesIn_append]
      simp only [hshift]
      exact ih _ _ _

/-- C9: in every run of `GenerateDataset`, whatever the output buffers held before
the run, at each `SaveOutput` call for camera `k` with sample count `s` (whether or
not the call goes on to write its file) every output buffer holds exactly `s`
render passes issued since it was last cleared, and all of them are passes of
camera `k`: no pass of an earlier camera is left in it. -/
theorem GenerateDataset_saved_after_passes (env : Env) (m_camera_states : List CameraInfo)
    (m_spp : List Int) (outputs : List OutputDesc) (m_outputs : List Nat)
    (m_camera : Option PerspectiveCamera) (path : String) (o : Nat) (passes : List Int)
    (pre post : List Event) (k s : Int) (d : OutputDesc) (written : Option String)
    (ho : o ∈ m_outputs)
    (hrun : (GenerateDataset env m_camera_states m_spp outputs m_outputs m_camera path).events =
      pre ++ Event.SaveOutput k d s written :: post) :
    ∃ n : Nat, (n : Int) = s ∧ passesIn o passes pre = List.replicate n k :=
  eachAfter_cameraLoop env m_spp outputs m_outputs path kNumIterations o ho m_camera_states 1
    m_camera passes
    pre (Event.SaveOutput k d s written) post hrun k d s written rfl

theorem eq_take_cons_drop {α : Type} (l : List α) (n : Nat) (a : α) (h : l.get? n = some a) :
    l = l.take n ++ a :: l.drop (n + 1) := by
  induction l generalizing n with
  | nil => simp at h
  | cons x l ih =>
    cases n with
    | zero =>
      simp only [List.get?_cons_zero, Option.some.injEq] at h
      simp [h]
    | succ n =>
      simp only [List.get?_cons_succ] at h
      simp only [List.take_succ_cons, List.drop_succ_cons, List.cons_append, List.cons.injEq,
        true_and]
      exact ih n h

set_option maxRecDepth 100000 in
/-- Witness of C9 on a run with one camera and the checkpoint set `{2}`, the buffers
holding three passes of an earlier run: the ninth event is the first `SaveOutput`
call, and buffer 0 then holds two passes of camera 1. -/
theorem GenerateDataset_saved_after_passes_witness :
    (0 : Nat) ∈ [0, 1, 2, 3, 4] ∧
      (GenerateDataset posixEnv [sampleInfo] [2] (sizedOutputs 640 480) [0, 1, 2, 3, 4] none
        "out").events.get? 8 =
        some (Event.SaveOutput 1 ⟨OutputType.kColor, "color", "png", 640, 480⟩ 2
          (some "out/cam_1_color_spp_2.png")) ∧
      ∃ n : Nat, (n : Int) = 2 ∧
        passesIn 0 [7, 7, 7]
          ((GenerateDataset posixEnv [sampleInfo] [2] (sizedOutputs 640 480) [0, 1, 2, 3, 4] none
            "out").events.take 8) = List.replicate n 1 := by
  have hget : (GenerateDataset posixEnv [sampleInfo] [2] (sizedOutputs 640 480) [0, 1, 2, 3, 4] none
      "out").events.get? 8 =
      some (Event.SaveOutput 1 ⟨OutputType.kColor, "color", "png", 640, 480⟩ 2
        (some "out/cam_1_color_spp_2.png")) := by
    decide
  exact ⟨by decide, hget,
    GenerateDataset_saved_after_passes posixEnv [sampleInfo] [2] (sizedOutputs 640 480)
      [0, 1, 2, 3, 4] none "out" 0 [7, 7, 7] _ _ 1 2 _ _ (by decide)
      (eq_take_cons_drop _ 8 _ hget)⟩

/-! ## The files saved by `GenerateDataset` -/

theorem savedFiles_append (a b : List Event) :
    savedFiles (a ++ b) = savedFiles a ++ savedFiles b := by
  induction a with
  | nil => rfl
  | cons e a ih =>
    cases e with
    | SaveOutput k d s w => cases w <;> simp [savedFiles, ih]
    | _ => simp [savedFiles, ih]

theorem savedFiles_clears (k : Int) (m_outputs : List Nat) :
    savedFiles (m_outputs.map (Event.Clear k)) = [] := by
  induction m_outputs with
  | nil => rfl
  | cons o l ih => simpa [savedFiles] using ih

theorem SaveOutput_ok (env : Env) (d : OutputDesc) (path : String) (k s : Int)
    (hfn : env.has_filename path = true) (henc : ∀ name, env.ImageOutput_create name = true) :
    SaveOutput env d path k s = Except.ok (env.path_append path (fileName d k s)) := by
  simp [SaveOutput, hfn, henc]

theorem saveOutputs_ok (env : Env) (path : String) (k s : Int) (outputs : List OutputDesc)
    (hfn : env.has_filename path = true) (henc : ∀ name, env.ImageOutput_create name = true) :
    saveOutputs env path k s outputs =
      (outputs.map
        (fun d => Event.SaveOutput k d s (some (env.path_append path (fileName d k s)))),
        none) := by
  induction outputs with
  | nil => rfl
  | cons d l ih => simp [saveOutputs, SaveOutput_ok env d path k s hfn henc, ih]

theorem savedFiles_saved (k s : Int) (f : OutputDesc → String) (outputs : List OutputDesc) :
    savedFiles (outputs.map (fun d => Event.SaveOutput k d s (some (f d)))) =
      outputs.map (fun d => (k, d, s, f d)) := by
  induction outputs with
  | nil => rfl
  | cons d l ih => simp [savedFiles, ih]

theorem renderLoop_ok (env : Env) (m_spp : List Int) (outputs : List OutputDesc) (path : String)
    (k : Int) (hfn : env.has_filename path = true)
    (henc : ∀ name, env.ImageOutput_create name = true) (n i : Nat) :
    (renderLoop env m_spp outputs path k n i).2 = none ∧
      savedFiles (renderLoop env m_spp outputs path k n i).1 =
        ((List.range' i n).filter (fun i => ((i + 1 : Nat) : Int) ∈ m_spp)).flatMap
          (fun i => outputs.map (fun d =>
            (k, d, ((i + 1 : Nat) : Int),
              env.path_append path (fileName d k ((i + 1 : Nat) : Int))))) := by
  induction n generalizing i with
  | zero => simp [renderLoop, savedFiles]
  | succ n ih =>
    obtain ⟨ih1, ih2⟩ := ih (i + 1)
    unfold renderLoop
    rw [saveOutputs_ok env path k _ outputs hfn henc]
    by_cases hmem : ((i + 1 : Nat) : Int) ∈ m_spp
    · rw [if_pos hmem]
      refine ⟨ih1, ?_⟩
      simp only [savedFiles, savedFiles_append, savedFiles_saved, ih2, List.range'_succ]
      rw [List.filter_cons_of_pos (by simpa using hmem), List.flatMap_cons]
    · rw [if_neg hmem]
      refine ⟨ih1, ?_⟩
      simp only [savedFiles, ih2, List.range'_succ]
      rw [List.filter_cons_of_neg (by simpa using hmem)]

theorem cameraLoop_ok (env : Env) (m_spp : List Int) (outputs : List OutputDesc)
    (m_outputs : List Nat) (path : String) (hfn : env.has_filename path = true)
    (henc : ∀ name, env.ImageOutput_create name = true)
    (cams : List CameraInfo) (counter : Int) (m_camera : Option PerspectiveCamera) :
    (cameraLoop env m_spp outputs m_outputs path kNumIterations cams counter m_camera).failure =
        none ∧
      savedFiles
          (cameraLoop env m_spp outputs m_outputs path kNumIterations cams counter
            m_camera).events =
        (List.range cams.length).flatMap
          (fun j => filesOfCamera env m_spp outputs path (counter + (j : Int))) := by
  induction cams generalizing counter m_camera with
  | nil => simp [cameraLoop, savedFiles]
  | cons c cams ih =>
    obtain ⟨h1, h2⟩ := renderLoop_ok env m_spp outputs path counter hfn henc kNumIterations 0
    rw [cameraLoop_cons]
    generalize renderLoop env m_spp outputs path counter kNumIterations 0 = r at h1 h2 ⊢
    obtain ⟨evs, fail⟩ := r
    simp only at h1 h2
    subst h1
    dsimp only
    obtain ⟨ih1, ih2⟩ := ih (counter + 1) (some (UpdateCameraSettings c
      (match m_camera with
       | none => initialCamera c
       | some c2 => c2)).1)
    refine ⟨ih1, ?_⟩
    have e1 : filesOfCamera env m_spp outputs path (counter + ((0 : Nat) : Int)) =
        savedFiles evs := by
      rw [h2]
      simp [filesOfCamera]
    have e2 : ∀ j : Nat, counter + 1 + (j : Int) = counter + ((j + 1 : Nat) : Int) := by
      intro j
      push_cast
      ring
    rw [savedFiles_append, savedFiles_append, savedFiles_append, savedFiles_clears, ih2,
      List.length_cons, List.range_succ_eq_map, List.flatMap_cons, List.flatMap_map, e1]
    simp only [savedFiles, List.nil_append, Function.comp, e2]

theorem mem_filesOfCamera (env : Env) (m_spp : List Int) (outputs : List OutputDesc)
    (path : String) (k k2 s : Int) (d : OutputDesc) (p : String) :
    (k2, d, s, p) ∈ filesOfCamera env m_spp outputs path k ↔
      k2 = k ∧ 1 ≤ s ∧ s ≤ 4096 ∧ s ∈ m_spp ∧ d ∈ outputs ∧
        p = env.path_append path (fileName d k s) := by
  simp only [filesOfCamera, List.mem_flatMap, List.mem_filter, List.mem_range'_1, List.mem_map,
    Prod.mk.injEq, decide_eq_true_eq, kNumIterations]
  constructor
  · rintro ⟨i, ⟨⟨_, hi⟩, hS⟩, d2, hd2, hk, hd, hs, hp⟩
    subst hk hd hs hp
    refine ⟨rfl, by omega, by omega, hS, hd2, rfl⟩
  · rintro ⟨hk, h1, h2, hS, hd, hp⟩
    have hs : (((s - 1).toNat + 1 : Nat) : Int) = s := by omega
    refine ⟨(s - 1).toNat, ⟨⟨by omega, by omega⟩, by rw [hs]; exact hS⟩, d, hd, hk.symm, rfl,
      hs, ?_⟩
    rw [hs, hp]

theorem nodup_flatMap_of_tag {α β : Type} (l : List α) (f : α → List β) (tag : β → α)
    (hl : l.Nodup) (hf : ∀ a ∈ l, (f a).Nodup) (htag : ∀ a ∈ l, ∀ b ∈ f a, tag b = a) :
    (l.flatMap f).Nodup := by
  rw [List.nodup_flatMap]
  refine ⟨hf, ?_⟩
  refine (List.Pairwise.and_mem.1 hl).imp ?_
  rintro a b ⟨ha, hb, hne⟩
  intro x hxa hxb
  exact hne ((htag a ha x hxa).symm.trans (htag b hb x hxb))

theorem nodup_filesOfCamera (env : Env) (m_spp : List Int) (outputs : List OutputDesc)
    (path : String) (k : Int) (houts : outputs.Nodup) :
    (filesOfCamera env m_spp outputs path k).Nodup := by
  unfold filesOfCamera
  refine nodup_flatMap_of_tag _ _ (fun t => (t.2.2.1 - 1).toNat)
    ((List.nodup_range' 0 kNumIterations).filter _) ?_ ?_
  · intro i _
    refine houts.map ?_
    intro d1 d2 h
    simp only [Prod.mk.injEq] at h
    exact h.2.1
  · intro i _ b hb
    simp only [List.mem_map] at hb
    obtain ⟨d, _, rfl⟩ := hb
    simp

set_option maxRecDepth 100000 in
theorem filter_checkpoints_10_50 (m_spp : List Int) (hS : ∀ s, s ∈ m_spp ↔ s = 10 ∨ s = 50) :
    (List.range' 0 kNumIterations).filter (fun i => ((i + 1 : Nat) : Int) ∈ m_spp) = [9, 49] := by
  have hcongr : (List.range' 0 kNumIterations).filter (fun i => ((i + 1 : Nat) : Int) ∈ m_spp) =
      (List.range' 0 kNumIterations).filter (fun i => decide (i = 9 ∨ i = 49)) := by
    apply List.filter_congr
    intro i _
    simp only [hS, decide_eq_decide]
    omega
  rw [hcongr]
  decide

theorem sizedOutputs_nodup (w h : Nat) : (sizedOutputs w h).Nodup := by
  apply List.Nodup.of_map OutputDesc.type
  simp only [sizedOutputs, outputs_collection, List.map_cons, List.map_nil]
  decide

/-- C1, amended: when the destination path has a filename component and an image
encoder can be created for every file name, `GenerateDataset` (run on the output
table as the constructor left it) ends without failure and the files its
`SaveOutput` calls write are, without repetition, exactly the quadruples
`(k, channel, i, file)` with `k` in `1..N` (`N` the number of loaded cameras), `i` in
`1..4096` a member of the checkpoint set, `channel` an entry of the five-entry
output table, and `file` the destination path extended by
`cam_<k>_<channel name>_spp_<i>.png`; with one camera and the checkpoint set
`{10, 50}` these are the ten files of sample counts 10 and 50. -/
theorem GenerateDataset_saved_files (env : Env) (m_camera_states : List CameraInfo)
    (m_spp : List Int) (w h : Nat) (m_outputs : List Nat) (m_camera : Option PerspectiveCamera)
    (path : String) (hfn : env.has_filename path = true)
    (henc : ∀ name, env.ImageOutput_create name = true) :
    (GenerateDataset env m_camera_states m_spp (sizedOutputs w h) m_outputs m_camera
        path).failure = none ∧
      (sizedOutputs w h).map OutputDesc.name =
        ["color", "view_shading_depth", "depth", "albedo", "gloss"] ∧
      (savedFiles (GenerateDataset env m_camera_states m_spp (sizedOutputs w h) m_outputs
        m_camera path).events).Nodup ∧
      (∀ k d s p,
        (k, d, s, p) ∈ savedFiles (GenerateDataset env m_camera_states m_spp (sizedOutputs w h)
            m_outputs m_camera path).events ↔
          1 ≤ k ∧ k ≤ (m_camera_states.length : Int) ∧ 1 ≤ s ∧ s ≤ 4096 ∧ s ∈ m_spp ∧
            d ∈ sizedOutputs w h ∧ p = env.path_append path (fileName d k s)) ∧
      (m_camera_states.length = 1 → (∀ s, s ∈ m_spp ↔ s = 10 ∨ s = 50) →
        savedFiles (GenerateDataset env m_camera_states m_spp (sizedOutputs w h) m_outputs
            m_camera path).events =
          [10, 50].flatMap (fun s => (sizedOutputs w h).map
            (fun d => (1, d, s, env.path_append path (fileName d 1 s))))) := by
  obtain ⟨h1, h2⟩ := cameraLoop_ok env m_spp (sizedOutputs w h) m_outputs path hfn henc
    m_camera_states 1 m_camera
  unfold GenerateDataset
  rw [h2]
  refine ⟨h1, rfl, ?_, ?_, ?_⟩
  · refine nodup_flatMap_of_tag _ _ (fun t => (t.1 - 1).toNat) (List.nodup_range _) ?_ ?_
    · intro j _
      exact nodup_filesOfCamera env m_spp (sizedOutputs w h) path _ (sizedOutputs_nodup w h)
    · rintro j _ ⟨k, d, s, p⟩ hb
      rw [mem_filesOfCamera] at hb
      simp only [hb.1]
      omega
  · intro k d s p
    simp only [List.mem_flatMap, List.mem_range, mem_filesOfCamera]
    constructor
    · rintro ⟨j, hj, hk, hs1, hs2, hS, hd, hp⟩
      subst hk
      exact ⟨by omega, by omega, hs1, hs2, hS, hd, hp⟩
    · rintro ⟨hk1, hk2, hs1, hs2, hS, hd, hp⟩
      have hk : 1 + (((k - 1).toNat : Nat) : Int) = k := by omega
      refine ⟨(k - 1).toNat, by omega, hk.symm, hs1, hs2, hS, hd, ?_⟩
      rw [hk]
      exact hp
  · intro hN hS
    have hr : List.range 1 = [0] := rfl
    rw [hN, hr]
    simp only [List.flatMap_cons, List.flatMap_nil, List.append_nil,
      filesOfCamera, filter_checkpoints_10_50 m_spp hS]
    rfl

/-- C1, as stated, fails: with a destination path that has a filename component, one
camera and the checkpoint set `{10, 50}`, but no image encoder for the file name,
the run stops at the first `SaveOutput` call and no file is saved. -/
theorem GenerateDataset_no_encoder :
    noEncoderEnv.has_filename "out" = true ∧
      (GenerateDataset noEncoderEnv [sampleInfo] [10, 50] (sizedOutputs 640 480)
        [0, 1, 2, 3, 4] none "out").failure =
          some (Failure.ex "Can't create image file on disk") ∧
      savedFiles (GenerateDataset noEncoderEnv [sampleInfo] [10, 50] (sizedOutputs 640 480)
        [0, 1, 2, 3, 4] none "out").events = [] := by
  decide

/-- Witness of the amended C1: one camera, checkpoint set `{10, 50}`, destination
`out`; the ten files saved, in order. -/
theorem GenerateDataset_saved_files_witness :
    posixEnv.has_filename "out" = true ∧
      (GenerateDataset posixEnv [sampleInfo] [50, 10] (sizedOutputs 640 480) [0, 1, 2, 3, 4]
        none "out").failure = none ∧
      (savedFiles (GenerateDataset posixEnv [sampleInfo] [50, 10] (sizedOutputs 640 480)
        [0, 1, 2, 3, 4] none "out").events).map (fun t => (t.1, t.2.1.name, t.2.2.1, t.2.2.2)) =
        [(1, "color", 10, "out/cam_1_color_spp_10.png"),
         (1, "view_shading_depth", 10, "out/cam_1_view_shading_depth_spp_10.png"),
         (1, "depth", 10, "out/cam_1_depth_spp_10.png"),
         (1, "albedo", 10, "out/cam_1_albedo_spp_10.png"),
         (1, "gloss", 10, "out/cam_1_gloss_spp_10.png"),
         (1, "color", 50, "out/cam_1_color_spp_50.png"),
         (1, "view_shading_depth", 50, "out/cam_1_view_shading_depth_spp_50.png"),
         (1, "depth", 50, "out/cam_1_depth_spp_50.png"),
         (1, "albedo", 50, "out/cam_1_albedo_spp_50.png"),
         (1, "gloss", 50, "out/cam_1_gloss_spp_50.png")] := by
  have h := GenerateDataset_saved_files posixEnv [sampleInfo] [50, 10] 640 480 [0, 1, 2, 3, 4]
    none "out" (by decide) (fun _ => rfl)
  refine ⟨by decide, h.1, ?_⟩
  rw [h.2.2.2.2 rfl (by intro s; simp [or_comm])]
  decide

end Baikal
